import Mathlib

/-!
Shallow embedding of the Multiprogramming Operating System simulator
(`src/MOS_Phase_3.cpp`) and verification of the frozen claims about it.

Conventions of the embedding:
* Machine words are 4-character lists (`WORD_SIZE = 4`); the 100-word
  memory (`MEM_SIZE = 100`), the 10-frame allocation bitmap and the lock
  bitmap are modelled as total functions from `Nat`, updated pointwise
  (C++ array writes become `upd`).
* The random draws of `allocateFrame` (from `mt19937` seeded by
  `random_device`) are modelled as an explicit stream of draws in
  `Fin 10`, one list per call, mirroring `uniform_int_distribution(0,9)`.
* C++ functions that communicate failure by setting `cpu.PI` and
  returning `false` are modelled with an explicit result type
  (`MapResult`); the caller writes the carried code into `cpu.PI`
  exactly where the C++ does.
* Output (`outFile`) is modelled as a list of events: one `line` event
  per data line written by `handleWrite`, and one `termRecord` event per
  termination block written by `terminate`.
-/

set_option autoImplicit false

namespace MOS

/-- `WORD_SIZE = 4` characters per machine word. -/
abbrev Word := List Char

/-- The NUL character used by the C++ code for cleared memory. -/
def nulc : Char := Char.ofNat 0

/-- The space character used for padding. -/
def spc : Char := ' '

/-- A word of four NUL characters (cleared memory / zeroed register). -/
def nulWord : Word := [nulc, nulc, nulc, nulc]

/-- Pointwise update of a function, modelling a C++ array write. -/
def upd {α : Type} (f : Nat → α) (i : Nat) (a : α) : Nat → α :=
  fun j => if j = i then a else f j

/-- `std::string::resize(WORD_SIZE, ' ')`: truncate to four characters or
right-pad with spaces up to four characters. -/
def resizeWord (w : List Char) : Word :=
  w.take 4 ++ List.replicate (4 - w.length) spc

/-- `::isspace` on the characters that can occur here. -/
def isSpaceC (c : Char) : Bool :=
  c == spc || c.toNat == 9 || c.toNat == 10 || c.toNat == 11 || c.toNat == 12 || c.toNat == 13

/-- Value of a maximal digit prefix, used to model `std::stoi`. -/
def digitsVal : List Char → Nat → Nat
  | [], acc => acc
  | c :: rest, acc =>
    if c.isDigit then digitsVal rest (acc * 10 + (c.toNat - 48)) else acc

/-- Digit-prefix part of `std::stoi`: fails when the first character is
not a digit, otherwise the value of the maximal digit prefix. -/
def parseDigits (cs : List Char) : Option Nat :=
  match cs with
  | [] => none
  | c :: _ => if c.isDigit then some (digitsVal (cs.takeWhile Char.isDigit) 0) else none

/-- `std::stoi` on an already whitespace-free operand string: optional
sign, then at least one digit; `none` models the thrown exception. -/
def parseStoi (cs : List Char) : Option Int :=
  match cs with
  | [] => none
  | c :: rest =>
    if c = '-' then (parseDigits rest).map (fun n => -(n : Int))
    else if c = '+' then (parseDigits rest).map (fun n => (n : Int))
    else (parseDigits cs).map (fun n => (n : Int))

/-- Split a data card into consecutive `WORD_SIZE`-character chunks, as
the loop in `handleRead` does with `substr`. -/
def chunkList : List Char → List (List Char)
  | [] => []
  | [a] => [[a]]
  | [a, b] => [[a, b]]
  | [a, b, c] => [[a, b, c]]
  | a :: b :: c :: d :: rest => [a, b, c, d] :: chunkList rest

/-- Strip the trailing run of spaces and NULs, as `executeInstruction`
does with `erase(find_if(rbegin, rend, ...))`. -/
def trimTrailing (w : List Char) : List Char :=
  (w.reverse.dropWhile (fun c => c == spc || c == nulc)).reverse

/-- Page table entry: `{int frame; bool valid;}`. -/
structure PageTableEntry where
  frame : Int
  valid : Bool
deriving DecidableEq

/-- The simulator's memory: 100 words of data, a 10-frame allocation
bitmap and a 10-frame lock bitmap, all modelled pointwise. -/
structure Memory where
  data : Nat → Word
  allocated : Nat → Bool
  locked : Nat → Bool

/-- CPU state, as in `struct CPUState`. -/
structure CPUState where
  IR : Word
  IC : Int
  R : Word
  C : Bool
  SI : Nat
  PI : Nat
  TI : Nat
  RA : Int
deriving DecidableEq

/-- `memset(&cpu, 0, sizeof(CPUState))` followed by the explicit zeroing
in `terminate`. -/
def zeroCPU : CPUState :=
  { IR := nulWord, IC := 0, R := nulWord, C := false, SI := 0, PI := 0, TI := 0, RA := 0 }

/-- Process states, as in `enum ProcessState`. -/
inductive ProcessState where
  | READY
  | RUNNING
  | BLOCKED
  | TERMINATED
deriving DecidableEq

/-- The fields of `struct ProcessContext` that are ever read back:
the saved program counter and the state tag (the registers, stack
pointer and status register are only ever written with zero). -/
structure ProcessContext where
  programCounter : Int
  state : ProcessState
deriving DecidableEq

/-- Process control block, as in `struct PCB`. -/
structure PCB where
  pid : Nat
  TTL : Nat
  TLL : Nat
  TTC : Nat
  LLC : Nat
  pageTable : Nat → PageTableEntry
  PTR : Int
  dataCards : List (List Char)
  terminated : Bool
  context : ProcessContext

/-- Termination reason codes, as in `enum EM_Code`. -/
inductive EMCode where
  | EM_NO_ERR
  | EM_OUT_OF_DATA
  | EM_LINE_LIMIT
  | EM_TIME_LIMIT
  | EM_OP_CODE_ERR
  | EM_OPERAND_ERR
  | EM_INVALID_PAGE
deriving DecidableEq

/-- Observable output events on `outFile`: a data line from
`handleWrite`, or the termination block from `terminate` (reason plus
the `TTC`/`LLC` counters at that moment). -/
inductive OutputEvent where
  | line (s : List Char)
  | termRecord (pid : Nat) (reason : EMCode) (ttc llc : Nat)
deriving DecidableEq

/-- Whole-system state: memory, ready queue, current PCB, CPU, global
timer, run flag, and the output produced so far. -/
structure Sys where
  mem : Memory
  readyQueue : List PCB
  current : Option PCB
  cpu : CPUState
  globalTimer : Nat
  systemRunning : Bool
  output : List OutputEvent

/-- Interrupt cause values: `enum SI_Type { READ=1, WRITE=2, TERM=3 }`. -/
def SI_READ : Nat := 1

/-- `WRITE = 2`. -/
def SI_WRITE : Nat := 2

/-- `TERM = 3`. -/
def SI_TERM : Nat := 3

/-- `enum PI_Type`: `PI_OP_ERR = 1`. -/
def PI_OP_ERR : Nat := 1

/-- `PI_OPERAND_ERR = 2`. -/
def PI_OPERAND_ERR : Nat := 2

/-- `PI_PAGE_FAULT = 3`. -/
def PI_PAGE_FAULT : Nat := 3

/-- `MAX_TIMER = 1000000`. -/
def MAX_TIMER : Nat := 1000000

/-- Result of `addressMap(VA, RA)`: either the computed real address, or
the `PI` code the C++ writes into `cpu.PI` before returning `false`. -/
inductive MapResult where
  | ok (ra : Nat)
  | fault (code : Nat)
deriving DecidableEq

/-- `MOS::addressMap`, translated check by check from the source:
range-check the VA (operand error), check `page >= FRAME_COUNT`, the
valid bit, the stored frame range (page faults), then range-check the
computed RA (operand error). -/
def addressMap (pt : Nat → PageTableEntry) (VA : Int) : MapResult :=
  if VA < 0 ∨ 100 ≤ VA then MapResult.fault PI_OPERAND_ERR
  else if 10 ≤ VA.toNat / 10 then MapResult.fault PI_PAGE_FAULT
  else if ¬ (pt (VA.toNat / 10)).valid then MapResult.fault PI_PAGE_FAULT
  else if (pt (VA.toNat / 10)).frame < 0 ∨ 10 ≤ (pt (VA.toNat / 10)).frame then
    MapResult.fault PI_PAGE_FAULT
  else if 100 ≤ (pt (VA.toNat / 10)).frame.toNat * 10 + VA.toNat % 10 then
    MapResult.fault PI_OPERAND_ERR
  else MapResult.ok ((pt (VA.toNat / 10)).frame.toNat * 10 + VA.toNat % 10)

/-- The address-mapping decision procedure exactly as claim C3 words it:
out-of-range VA is an operand error; page out of range, invalid entry or
stored frame outside `[0,10)` is a page fault; an out-of-range computed
RA is an operand error; otherwise `RA = frame*10 + offset`. -/
def addressMapSpec (pt : Nat → PageTableEntry) (VA : Int) : MapResult :=
  if VA < 0 ∨ 100 ≤ VA then MapResult.fault PI_OPERAND_ERR
  else if 10 ≤ VA.toNat / 10 ∨ ¬ (pt (VA.toNat / 10)).valid ∨
      (pt (VA.toNat / 10)).frame < 0 ∨ 10 ≤ (pt (VA.toNat / 10)).frame then
    MapResult.fault PI_PAGE_FAULT
  else if 100 ≤ (pt (VA.toNat / 10)).frame.toNat * 10 + VA.toNat % 10 then
    MapResult.fault PI_OPERAND_ERR
  else MapResult.ok ((pt (VA.toNat / 10)).frame.toNat * 10 + VA.toNat % 10)

/-- Inner loop of `MOS::allocateFrame`: consume random draws one per
attempt, returning the first frame whose allocation bit is false and
setting that bit. -/
def allocateFrameGo : List (Fin 10) → Memory → Option (Nat × Memory)
  | [], _ => none
  | d :: rest, m =>
    if m.allocated d.val then allocateFrameGo rest m
    else some (d.val, { m with allocated := upd m.allocated d.val true })

/-- `MOS::allocateFrame`: at most `FRAME_COUNT*2 = 20` uniform draws
(modelled as the first 20 entries of the given draw stream); returns the
first unallocated frame drawn, or `none` (the C++ `-1`) if all 20 draws
hit allocated frames. -/
def allocateFrame (draws : List (Fin 10)) (m : Memory) : Option (Nat × Memory) :=
  allocateFrameGo (draws.take 20) m

/-- `allocateFrame` as claim C10 words it: among the at most 20 draws,
find the first one whose allocation bit is false; set exactly that bit;
fail if every draw was already allocated. -/
def allocateFrameSpec (draws : List (Fin 10)) (m : Memory) : Option (Nat × Memory) :=
  match (draws.take 20).find? (fun d => ! m.allocated d.val) with
  | none => none
  | some d => some (d.val, { m with allocated := upd m.allocated d.val true })

/-- Net effect of the frame-clearing loops (`Memory::clearFrame` and the
clear loop in `loadProgramIntoMemory`): all ten words of frame `f`
become NUL words. -/
def clearFrameData (f : Nat) (d : Nat → Word) : Nat → Word :=
  fun k => if f * 10 ≤ k ∧ k < f * 10 + 10 then nulWord else d k

/-- The instruction-copy loop of `loadProgramIntoMemory` for page `i`
into frame `f`: instructions `2*i` to `min(2*i+2, n) - 1` go to words 0
and 1 of the frame, each resized to `WORD_SIZE`. -/
def writePage (f i : Nat) (instrs : List (List Char)) (d : Nat → Word) : Nat → Word :=
  (List.range' (2 * i) (min (2 * i + 2) instrs.length - 2 * i)).foldl
    (fun dd j => upd dd (f * 10 + (j - 2 * i)) (resizeWord (instrs.getD j []))) d

/-- The per-page loop of `loadProgramIntoMemory` over the given page
indices: allocate a frame (abort the batch on failure, the C++ throw),
clear it, copy this page's instructions, and record `{frame, valid}`. -/
def loadPages (instrs : List (List Char)) :
    List Nat → List (List (Fin 10)) → (Nat → PageTableEntry) → Memory →
    Option ((Nat → PageTableEntry) × Memory)
  | [], _, pt, m => some (pt, m)
  | i :: rest, drawss, pt, m =>
    match allocateFrame (drawss.headD []) m with
    | none => none
    | some fm =>
      let m2 : Memory := { fm.2 with data := writePage fm.1 i instrs (clearFrameData fm.1 fm.2.data) }
      loadPages instrs rest drawss.tail (upd pt i ⟨(fm.1 : Int), true⟩) m2

/-- `MOS::loadProgramIntoMemory`, given the already split-and-stripped
instruction list: `instructionsPerPage = PAGE_SIZE / WORD_SIZE = 2`,
`pagesNeeded = ceil(n/2)`, all entries re-initialised invalid, then one
frame per needed page (capped at `FRAME_COUNT`). `drawss` supplies the
random draws, one list per `allocateFrame` call. -/
def loadProgramIntoMemory (drawss : List (List (Fin 10))) (pcb : PCB) (mem : Memory)
    (instrs : List (List Char)) : Option (PCB × Memory) :=
  let pagesNeeded := (instrs.length + 1) / 2
  (loadPages instrs (List.range (min pagesNeeded 10)) drawss (fun _ => ⟨-1, false⟩) mem).map
    (fun pm => ({ pcb with pageTable := pm.1 }, pm.2))

/-- The three writes of the per-frame release in `MOS::terminate`:
clear the allocation bit, clear the frame contents, clear the lock. -/
def releaseFrame (f : Nat) (m : Memory) : Memory :=
  { data := clearFrameData f m.data,
    allocated := upd m.allocated f false,
    locked := upd m.locked f false }

/-- The page-table release loop of `MOS::terminate`: for each index with
a valid entry, release the frame when it is in range, and clear the
valid bit. -/
def releaseEntries : List Nat → (Nat → PageTableEntry) → Memory → (Nat → PageTableEntry) × Memory
  | [], pt, m => (pt, m)
  | i :: rest, pt, m =>
    if (pt i).valid then
      let m2 := if 0 ≤ (pt i).frame ∧ (pt i).frame < 10 then releaseFrame (pt i).frame.toNat m else m
      releaseEntries rest (upd pt i ⟨(pt i).frame, false⟩) m2
    else releaseEntries rest pt m

/-- `MOS::terminate`, returning both the snapshot of the PCB at the
moment it enters `TERMINATED` (the C++ object is subsequently scrubbed
and `delete`d, so the snapshot is the ghost observation claim C6 is
about) and the resulting system state.  Steps, as in the source: emit
the termination record, release the page-table frame (when `PTR != -1`),
release every valid page-table entry, zero the CPU if the PCB was
`RUNNING`, clear the data cards, mark the PCB terminated, schedule the
next PCB or stop the system, and finally clear all three cause fields. -/
def terminateCore (code : EMCode) (s : Sys) : Option PCB × Sys :=
  match s.current with
  | none => (none, s)
  | some p =>
    let out1 := s.output ++ [OutputEvent.termRecord p.pid code p.TTC p.LLC]
    let mem1 := if p.PTR ≠ -1 then releaseFrame (p.PTR.toNat / 10) s.mem else s.mem
    let rel := releaseEntries (List.range 10) p.pageTable mem1
    let cpu1 := if p.context.state = ProcessState.RUNNING then zeroCPU else s.cpu
    let p2 : PCB :=
      { p with
        pageTable := rel.1
        dataCards := []
        terminated := true
        context := { p.context with state := ProcessState.TERMINATED } }
    match s.readyQueue with
    | [] =>
      (some p2,
       { mem := rel.2, readyQueue := [], current := none,
         cpu := { cpu1 with TI := 0, SI := 0, PI := 0 },
         globalTimer := s.globalTimer, systemRunning := false, output := out1 })
    | q :: rest =>
      (some p2,
       { mem := rel.2, readyQueue := rest,
         current := some { q with context := { q.context with state := ProcessState.RUNNING } },
         cpu := { cpu1 with IC := 0, TI := 0, SI := 0, PI := 0 },
         globalTimer := s.globalTimer, systemRunning := s.systemRunning, output := out1 })

/-- `MOS::terminate` as seen by the rest of the system. -/
def terminate (code : EMCode) (s : Sys) : Sys :=
  (terminateCore code s).2

/-- `MOS::saveContext`: mark the current PCB `BLOCKED` and save `IC`
into its context (the register/SP/status saves only write zeros). -/
def saveContext (s : Sys) : Sys :=
  match s.current with
  | none => s
  | some p =>
    { s with current := some { p with context := ⟨s.cpu.IC, ProcessState.BLOCKED⟩ } }

/-- `MOS::restoreContext`: mark the current PCB `RUNNING`; restore `IC`
from the saved program counter, except that the `-1` first-run sentinel
restores `IC = 0`. -/
def restoreContext (s : Sys) : Sys :=
  match s.current with
  | none => s
  | some p =>
    let p2 := { p with context := { p.context with state := ProcessState.RUNNING } }
    if p.context.programCounter = -1 then
      { s with current := some p2, cpu := { s.cpu with IC := 0 } }
    else
      { s with current := some p2, cpu := { s.cpu with IC := p.context.programCounter } }

/-- Chunk-writing loop of `MOS::handleRead`: chunk `i` goes to virtual
address `cpu.RA + i` through the mapper; a mapping failure stores the
`PI` code and aborts the rest of the card. -/
def writeChunksGo (pt : Nat → PageTableEntry) (ra0 : Int) :
    List (List Char) → Nat → CPUState → (Nat → Word) → CPUState × (Nat → Word)
  | [], _, cpu, d => (cpu, d)
  | w :: ws, idx, cpu, d =>
    match addressMap pt (ra0 + (idx : Int)) with
    | MapResult.fault pi => ({ cpu with PI := pi }, d)
    | MapResult.ok ra => writeChunksGo pt ra0 ws (idx + 1) cpu (upd d ra (resizeWord w))

/-- `MOS::handleRead` on the current PCB, CPU and memory: with no data
cards left set `SI = TERM`; otherwise pop the front card and write its
4-character chunks (last one space-padded) starting at virtual address
`cpu.RA`. -/
def handleRead (p : PCB) (cpu : CPUState) (m : Memory) : PCB × CPUState × Memory :=
  match p.dataCards with
  | [] => (p, { cpu with SI := SI_TERM }, m)
  | d :: rest =>
    let r := writeChunksGo p.pageTable cpu.RA (chunkList d) 0 cpu m.data
    ({ p with dataCards := rest }, r.1, { m with data := r.2 })

/-- `handleRead` lifted to the system state (the C++ handler
dereferences `currentPCB`; all call sites have a current PCB). -/
def handleReadS (s : Sys) : Sys :=
  match s.current with
  | none => s
  | some p =>
    let r := handleRead p s.cpu s.mem
    { s with current := some r.1, cpu := r.2.1, mem := r.2.2 }

/-- `MOS::handleWrite`: increment `LLC` first; if it exceeds `TLL`, set
`SI = TERM` and emit nothing; otherwise map `cpu.RA`, strip NULs from
the word and emit one output line. -/
def handleWrite (p : PCB) (cpu : CPUState) (m : Memory) (out : List OutputEvent) :
    PCB × CPUState × List OutputEvent :=
  let p2 := { p with LLC := p.LLC + 1 }
  if p2.TLL < p2.LLC then (p2, { cpu with SI := SI_TERM }, out)
  else
    match addressMap p2.pageTable cpu.RA with
    | MapResult.fault pi => (p2, { cpu with PI := pi }, out)
    | MapResult.ok ra =>
      (p2, cpu, out ++ [OutputEvent.line ((m.data ra).filter (fun c => c != nulc))])

/-- `handleWrite` lifted to the system state. -/
def handleWriteS (s : Sys) : Sys :=
  match s.current with
  | none => s
  | some p =>
    let r := handleWrite p s.cpu s.mem s.output
    { s with current := some r.1, cpu := r.2.1, output := r.2.2 }

/-- Identities of the seven handlers bound into the vector table. -/
inductive HandlerId where
  | timer
  | opErr
  | operandErr
  | pageFault
  | readH
  | writeH
  | termH
deriving DecidableEq

/-- One interrupt vector entry `{type, priority, handler}` (`ty` is the
C++ `type` field, `pr` the `priority` field). -/
structure IVEntry where
  ty : Nat
  pr : Int
  h : HandlerId
deriving DecidableEq

/-- The interrupt vector table exactly as `initInterruptVectorTable`
builds it: timer, the three program interrupts, then the three system
call interrupts, with priorities TIMER=3, PAGE_FAULT=2, PROGRAM=1,
SYSCALL=0.  Note that the `type` values of the PI and SI namespaces
collide numerically (1, 2, 3 appear twice). -/
def ivt : List IVEntry :=
  [⟨0, 3, HandlerId.timer⟩,
   ⟨1, 1, HandlerId.opErr⟩,
   ⟨2, 1, HandlerId.operandErr⟩,
   ⟨3, 2, HandlerId.pageFault⟩,
   ⟨1, 0, HandlerId.readH⟩,
   ⟨2, 0, HandlerId.writeH⟩,
   ⟨3, 0, HandlerId.termH⟩]

/-- One scan loop of `handleInterrupt`: keep the entry whose `type`
equals the cause and whose priority strictly exceeds the best so far. -/
def scanEntries (cause : Nat) : List IVEntry → Option IVEntry → Int → Option IVEntry × Int
  | [], best, hp => (best, hp)
  | e :: rest, best, hp =>
    if e.ty = cause ∧ hp < e.pr then scanEntries cause rest (some e) e.pr
    else scanEntries cause rest best hp

/-- The selection phase of `MOS::handleInterrupt`: the timer entry when
`TI` is set, then a scan for `PI`, then a scan for `SI`, each only
overriding on strictly higher priority. -/
def selectEntry (ti pi si : Nat) : Option IVEntry :=
  let b0 : Option IVEntry × Int := if ti ≠ 0 then (some ⟨0, 3, HandlerId.timer⟩, 3) else (none, -1)
  let b1 := if pi ≠ 0 then scanEntries pi ivt b0.1 b0.2 else b0
  let b2 := if si ≠ 0 then scanEntries si ivt b1.1 b1.2 else b1
  b2.1

/-- Dispatch to the bound member function of a vector entry. -/
def runHandler (h : HandlerId) (s : Sys) : Sys :=
  match h with
  | HandlerId.timer => terminate EMCode.EM_TIME_LIMIT s
  | HandlerId.opErr => terminate EMCode.EM_OP_CODE_ERR s
  | HandlerId.operandErr => terminate EMCode.EM_OPERAND_ERR s
  | HandlerId.pageFault => terminate EMCode.EM_INVALID_PAGE s
  | HandlerId.readH => handleReadS s
  | HandlerId.writeH => handleWriteS s
  | HandlerId.termH => terminate EMCode.EM_NO_ERR s

/-- `MOS::handleInterrupt`: select the highest priority pending entry,
save context, run the handler, then clear `TI` if the entry's type was
0, else clear `PI` if the type equals the (post-handler) `PI`, else
clear `SI` if it equals the (post-handler) `SI`; finally restore
context.  (`interruptsEnabled` is initialised true and never changed.) -/
def handleInterrupt (s : Sys) : Sys :=
  match selectEntry s.cpu.TI s.cpu.PI s.cpu.SI with
  | none => s
  | some e =>
    let s2 := runHandler e.h (saveContext s)
    let cpu3 :=
      if e.ty = 0 then { s2.cpu with TI := 0 }
      else if e.ty = s2.cpu.PI then { s2.cpu with PI := 0 }
      else if e.ty = s2.cpu.SI then { s2.cpu with SI := 0 }
      else s2.cpu
    restoreContext { s2 with cpu := cpu3 }

/-- Opcode constant `"GD"`. -/
def opGD : List Char := ['G', 'D']

/-- Opcode constant `"PD"`. -/
def opPD : List Char := ['P', 'D']

/-- Opcode constant `"H"`. -/
def opH : List Char := ['H']

/-- Opcode constant `"LR"`. -/
def opLR : List Char := ['L', 'R']

/-- Opcode constant `"SR"`. -/
def opSR : List Char := ['S', 'R']

/-- Opcode constant `"CR"`. -/
def opCR : List Char := ['C', 'R']

/-- Opcode constant `"BT"`. -/
def opBT : List Char := ['B', 'T']

/-- `MOS::executeArithmeticLogic`: map the operand first (any failure
stores the PI code), then `LR`/`SR`/`CR`/`BT` on register, memory word,
condition flag and `IC`. -/
def executeArithmeticLogic (op : List Char) (target : Int) (s : Sys) : Sys :=
  match s.current with
  | none => s
  | some p =>
    match addressMap p.pageTable target with
    | MapResult.fault pi => { s with cpu := { s.cpu with PI := pi } }
    | MapResult.ok ra =>
      if op = opLR then { s with cpu := { s.cpu with R := s.mem.data ra } }
      else if op = opSR then { s with mem := { s.mem with data := upd s.mem.data ra s.cpu.R } }
      else if op = opCR then { s with cpu := { s.cpu with C := s.cpu.R == s.mem.data ra } }
      else if op = opBT then
        (if s.cpu.C then { s with cpu := { s.cpu with IC := target } } else s)
      else s

/-- `MOS::executeInstruction`, from the source: trim the IR, reject
instructions shorter than 3 characters (`PI = OP_ERR` plus an immediate
`terminate(EM_OP_CODE_ERR)`); split into opcode and operand.  `GD`
parses its operand but never maps it (the `addressMap` call is commented
out in the source), sets `SI = READ`, calls `handleRead()` and then
`handleTerminate()` — i.e. `terminate(EM_NO_ERR)` — inline.  `PD` maps
the operand into `cpu.RA`, sets `SI = WRITE` and calls `handleWrite()`
inline.  `H` sets `SI = TERM` and calls `handleInterrupt()`.  The
arithmetic opcodes go through `executeArithmeticLogic`; anything else is
`PI = OP_ERR` plus `terminate(EM_OP_CODE_ERR)`. -/
def executeInstruction (s : Sys) : Sys :=
  let instr := trimTrailing s.cpu.IR
  if instr.length < 3 then
    terminate EMCode.EM_OP_CODE_ERR { s with cpu := { s.cpu with PI := PI_OP_ERR } }
  else
    let op := (instr.take 2).filter (fun c => ! isSpaceC c)
    let operandStr := (instr.drop 2).filter (fun c => ! isSpaceC c)
    if op = opGD then
      match parseStoi operandStr with
      | none => { s with cpu := { s.cpu with PI := PI_OPERAND_ERR } }
      | some _ =>
        terminate EMCode.EM_NO_ERR (handleReadS { s with cpu := { s.cpu with SI := SI_READ } })
    else if op = opPD then
      match parseStoi operandStr with
      | none => { s with cpu := { s.cpu with PI := PI_OPERAND_ERR } }
      | some t =>
        match s.current with
        | none => s
        | some p =>
          match addressMap p.pageTable t with
          | MapResult.fault pi => { s with cpu := { s.cpu with PI := pi } }
          | MapResult.ok ra =>
            handleWriteS { s with cpu := { s.cpu with RA := (ra : Int), SI := SI_WRITE } }
    else if op = opH then
      handleInterrupt { s with cpu := { s.cpu with SI := SI_TERM } }
    else if op = opLR ∨ op = opSR ∨ op = opCR ∨ op = opBT then
      match parseStoi operandStr with
      | none => { s with cpu := { s.cpu with PI := PI_OPERAND_ERR } }
      | some t => executeArithmeticLogic op t s
    else
      terminate EMCode.EM_OP_CODE_ERR { s with cpu := { s.cpu with PI := PI_OP_ERR } }

/-- The two timer increments after `executeInstruction` in the run loop:
`currentPCB->TTC++; globalTimer++;` (the C++ dereferences `currentPCB`
unconditionally here; when an inline termination has emptied the ready
queue that dereference is a null-pointer fault — the model skips the
`TTC` bump in that unreachable-in-healthy-runs case). -/
def bumpTimers (s : Sys) : Sys :=
  match s.current with
  | some q => { s with current := some { q with TTC := q.TTC + 1 }, globalTimer := s.globalTimer + 1 }
  | none => { s with globalTimer := s.globalTimer + 1 }

/-- `!currentPCB || currentPCB->terminated`. -/
def currentDead (s : Sys) : Bool :=
  match s.current with
  | none => true
  | some p => p.terminated

/-- The quantum context switch of `executeJob`: save context, push the
current PCB to the tail, take the head as new current, restore its
context. -/
def contextSwitch (s : Sys) : Sys :=
  let s1 := saveContext s
  match s1.current, s1.readyQueue with
  | some p, q :: rest => restoreContext { s1 with current := some q, readyQueue := rest ++ [p] }
  | _, _ => s1

/-- The preemption check at the end of each loop iteration:
`globalTimer % 10 == 0 && !readyQueue.empty()`. -/
def preemptCheck (s : Sys) : Sys :=
  if s.globalTimer % 10 = 0 ∧ s.readyQueue.isEmpty = false then contextSwitch s else s

/-- Result of one `executeJob` loop iteration: `ret` means `executeJob`
returns (loop-guard exit or one of the `return` statements), `cont`
means the loop proceeds to the next iteration. -/
inductive StepRes where
  | ret (s : Sys)
  | cont (s : Sys)

/-- The fetch/decode/execute part of one `executeJob` iteration,
faithful to the source: loop guard (`!terminated && TTC < TTL`), the
inner `TTC >= TTL` time-limit check (note it sits in the `else` of an
identical guard), instruction address mapping (failure returns with `PI`
set and no dispatch), fetch with NUL-stripping, the empty-instruction
return, IR load, `IC++`, `executeInstruction`, and the `TTC`/timer
bumps. -/
def instrPhase (s : Sys) : StepRes :=
  match s.current with
  | none => StepRes.ret s
  | some p =>
    if p.terminated then StepRes.ret s
    else if p.TTL ≤ p.TTC then StepRes.ret s
    else if p.TTL ≤ p.TTC then StepRes.ret (terminate EMCode.EM_TIME_LIMIT s)
    else
      match addressMap p.pageTable s.cpu.IC with
      | MapResult.fault pi => StepRes.ret { s with cpu := { s.cpu with PI := pi } }
      | MapResult.ok realAddr =>
        let fetched := (s.mem.data realAddr).filter (fun c => c != nulc)
        if fetched = [] then StepRes.ret s
        else
          StepRes.cont (bumpTimers (executeInstruction
            { s with cpu := { s.cpu with IR := resizeWord fetched, IC := s.cpu.IC + 1 } }))

/-- One full iteration of the `executeJob` while loop: the instruction
phase, then — only if a cause is pending — the interrupt dispatch with
its dead-PCB return, then the preemption check. -/
def loopIter (s : Sys) : StepRes :=
  match instrPhase s with
  | StepRes.ret e => StepRes.ret e
  | StepRes.cont s3 =>
    if s3.cpu.SI ≠ 0 ∨ s3.cpu.PI ≠ 0 ∨ s3.cpu.TI ≠ 0 then
      let s4 := handleInterrupt s3
      if currentDead s4 then StepRes.ret s4 else StepRes.cont (preemptCheck s4)
    else StepRes.cont (preemptCheck s3)

/-- The state carried by a step result. -/
def stepState (r : StepRes) : Sys :=
  match r with
  | StepRes.ret e => e
  | StepRes.cont e => e

/-- State reached after one loop iteration, whether it returned or
continued. -/
def afterIter (s : Sys) : Sys :=
  match loopIter s with
  | StepRes.ret e => e
  | StepRes.cont e => e

/-- Whether a loop iteration made `executeJob` return. -/
def isRet (r : StepRes) : Bool :=
  match r with
  | StepRes.ret _ => true
  | StepRes.cont _ => false

/-- The fuelled while loop of `MOS::executeJob`. -/
def executeJobLoop : Nat → Sys → Sys
  | 0, s => s
  | n + 1, s =>
    match loopIter s with
    | StepRes.ret e => e
    | StepRes.cont s2 => executeJobLoop n s2

/-- `MOS::executeJob`: the entry guard, the `state = RUNNING` write, and
the while loop (with explicit fuel; every claim instantiates enough). -/
def executeJob (fuel : Nat) (s : Sys) : Sys :=
  match s.current with
  | none => s
  | some p =>
    if p.terminated then s
    else executeJobLoop fuel
      { s with current := some { p with context := { p.context with state := ProcessState.RUNNING } } }

/-- The fuelled outer loop of `MOS::run` (after `loadJobs`): while
`systemRunning && globalTimer < MAX_TIMER`, pick a current PCB from the
queue if there is none (stopping when the queue is empty), then
`executeJob`. -/
def runLoop : Nat → Nat → Sys → Sys
  | 0, _, s => s
  | m + 1, jf, s =>
    if s.systemRunning = false ∨ MAX_TIMER ≤ s.globalTimer then s
    else
      match s.current with
      | none =>
        match s.readyQueue with
        | [] => { s with systemRunning := false }
        | q :: rest =>
          runLoop m jf (executeJob jf (restoreContext { s with current := some q, readyQueue := rest }))
      | some _ => runLoop m jf (executeJob jf s)

/-- A demonstration page table mapping only page 9, to frame 5. -/
def demoPT : Nat → PageTableEntry :=
  fun p => if p = 9 then ⟨5, true⟩ else ⟨-1, false⟩

/-- Memory with all words NUL and nothing allocated or locked. -/
def mem0 : Memory :=
  { data := fun _ => nulWord, allocated := fun _ => false, locked := fun _ => false }

/-- Recogniser for `TIME_LIMIT` termination records in the output. -/
def isTL (e : OutputEvent) : Bool :=
  match e with
  | OutputEvent.termRecord _ EMCode.EM_TIME_LIMIT _ _ => true
  | _ => false

/-- The termination reason of the terminating handlers; `none` for the
read and write handlers, which do not terminate. -/
def handlerCode (h : HandlerId) : Option EMCode :=
  match h with
  | HandlerId.timer => some EMCode.EM_TIME_LIMIT
  | HandlerId.opErr => some EMCode.EM_OP_CODE_ERR
  | HandlerId.operandErr => some EMCode.EM_OPERAND_ERR
  | HandlerId.pageFault => some EMCode.EM_INVALID_PAGE
  | HandlerId.termH => some EMCode.EM_NO_ERR
  | HandlerId.readH => none
  | HandlerId.writeH => none

/-- C1 scenario PCB: one data card `HELLO`, pages 1 and 4 mapped (to
frames 3 and 2), page-table frame 0. -/
def c1pcb : PCB :=
  { pid := 9, TTL := 10, TLL := 10, TTC := 0, LLC := 0,
    pageTable := fun i => if i = 1 then ⟨3, true⟩ else if i = 4 then ⟨2, true⟩ else ⟨-1, false⟩,
    PTR := 0, dataCards := ["HELLO".toList], terminated := false,
    context := ⟨0, ProcessState.RUNNING⟩ }

/-- C1 scenario CPU: `IR = "GD10"` just fetched (IC already bumped), and
a stale `RA = 40` left over from earlier activity. -/
def c1cpu : CPUState :=
  { IR := "GD10".toList, IC := 1, R := nulWord, C := false, SI := 0, PI := 0, TI := 0, RA := 40 }

/-- C1 scenario memory: frames 0 (page table), 2 and 3 allocated. -/
def c1mem : Memory :=
  { mem0 with allocated := fun i => i == 0 || i == 2 || i == 3 }

/-- C1 scenario system state, ready queue empty. -/
def c1sys : Sys :=
  { mem := c1mem, readyQueue := [], current := some c1pcb, cpu := c1cpu,
    globalTimer := 0, systemRunning := true, output := [] }

/-- C2 scenario PCB: `TTL = 1`, page 0 mapped to frame 1. -/
def c2pcb : PCB :=
  { pid := 3, TTL := 1, TLL := 10, TTC := 0, LLC := 0,
    pageTable := fun i => if i = 0 then ⟨1, true⟩ else ⟨-1, false⟩,
    PTR := 0, dataCards := [], terminated := false,
    context := ⟨-1, ProcessState.READY⟩ }

/-- C2 scenario memory: word 10 (frame 1, word 0) holds `LR00`. -/
def c2mem : Memory :=
  { mem0 with
    data := fun k => if k = 10 then "LR00".toList else nulWord
    allocated := fun i => i == 0 || i == 1 }

/-- C2 scenario system state. -/
def c2sys : Sys :=
  { mem := c2mem, readyQueue := [], current := some c2pcb, cpu := zeroCPU,
    globalTimer := 0, systemRunning := true, output := [] }

/-- C4 scenario PCB: `TLL = 0`, pages 0 and 1 mapped to frames 1 and 2. -/
def c4pcb : PCB :=
  { pid := 4, TTL := 10, TLL := 0, TTC := 0, LLC := 0,
    pageTable := fun i => if i = 0 then ⟨1, true⟩ else if i = 1 then ⟨2, true⟩ else ⟨-1, false⟩,
    PTR := 0, dataCards := [], terminated := false,
    context := ⟨0, ProcessState.RUNNING⟩ }

/-- C4 scenario memory: word 10 (frame 1, word 0) holds `PD10`. -/
def c4mem : Memory :=
  { mem0 with
    data := fun k => if k = 10 then "PD10".toList else nulWord
    allocated := fun i => i == 0 || i == 1 || i == 2 }

/-- C4 scenario system state. -/
def c4sys : Sys :=
  { mem := c4mem, readyQueue := [], current := some c4pcb, cpu := zeroCPU,
    globalTimer := 0, systemRunning := true, output := [] }

/-- C5 counterexample PCB (contents mostly irrelevant). -/
def c5pcb : PCB :=
  { pid := 5, TTL := 10, TLL := 10, TTC := 0, LLC := 0,
    pageTable := fun _ => ⟨-1, false⟩, PTR := 0, dataCards := [], terminated := false,
    context := ⟨0, ProcessState.RUNNING⟩ }

/-- C5 counterexample state: `PI = OP_ERR` and `SI = WRITE` pending
simultaneously. -/
def c5sys : Sys :=
  { mem := { mem0 with allocated := fun i => i == 0 }, readyQueue := [], current := some c5pcb,
    cpu := { zeroCPU with PI := PI_OP_ERR, SI := SI_WRITE },
    globalTimer := 0, systemRunning := true, output := [] }

/-- C8 scenario PCB: a job loaded with zero instructions — no page-table
entry is valid. -/
def c8pcb : PCB :=
  { pid := 8, TTL := 10, TLL := 10, TTC := 0, LLC := 0,
    pageTable := fun _ => ⟨-1, false⟩, PTR := 0, dataCards := [], terminated := false,
    context := ⟨0, ProcessState.RUNNING⟩ }

/-- C8 scenario initial state, as when the executor first picks the
zero-instruction job. -/
def c8sys0 : Sys :=
  { mem := { mem0 with allocated := fun i => i == 0 }, readyQueue := [], current := some c8pcb,
    cpu := zeroCPU, globalTimer := 0, systemRunning := true, output := [] }

/-- C8 fixed-point state: same as `c8sys0` but with the page fault from
the failed instruction-address mapping recorded in `PI`. -/
def c8sys1 : Sys :=
  { c8sys0 with cpu := { zeroCPU with PI := PI_PAGE_FAULT } }

/-- C7 scenario PCB: page 0 mapped to frame 1, generous quotas. -/
def c7pcb : PCB :=
  { pid := 7, TTL := 10, TLL := 10, TTC := 0, LLC := 0,
    pageTable := fun i => if i = 0 then ⟨1, true⟩ else ⟨-1, false⟩,
    PTR := 0, dataCards := [], terminated := false,
    context := ⟨0, ProcessState.RUNNING⟩ }

/-- C7 scenario memory: word 10 holds `LR00`. -/
def c7mem : Memory :=
  { mem0 with
    data := fun k => if k = 10 then "LR00".toList else nulWord
    allocated := fun i => i == 0 || i == 1 }

/-- C7 scenario state with an empty ready queue. -/
def c7sysA : Sys :=
  { mem := c7mem, readyQueue := [], current := some c7pcb, cpu := zeroCPU,
    globalTimer := 0, systemRunning := true, output := [] }

/-- The state after the instruction phase of `c7sysA`. -/
def c7sysA3 : Sys :=
  match instrPhase c7sysA with
  | StepRes.cont e => e
  | StepRes.ret e => e

/-- A second PCB for the preemption witness. -/
def c7pcbQ : PCB :=
  { c7pcb with pid := 17 }

/-- C7 preemption witness state: global timer at a quantum boundary and
a nonempty ready queue. -/
def c7sysB : Sys :=
  { c7sysA with globalTimer := 10, readyQueue := [c7pcbQ] }

/-- C9 witness program: three instructions, so two pages are needed. -/
def c9instrs : List (List Char) :=
  ["GD10".toList, "PD10".toList, "H".toList]

/-- C9 witness memory: frame 0 (the page-table frame) allocated. -/
def c9mem0 : Memory :=
  { mem0 with allocated := fun i => i == 0 }

/-- C9 witness PCB before program load. -/
def c9pcb0 : PCB :=
  { pid := 1, TTL := 10, TLL := 10, TTC := 0, LLC := 0,
    pageTable := fun _ => ⟨-1, false⟩, PTR := 0, dataCards := [], terminated := false,
    context := ⟨-1, ProcessState.READY⟩ }

/-- C9 witness draw streams: frame 1 for page 0, frame 2 for page 1. -/
def c9drawss : List (List (Fin 10)) :=
  [[1], [2]]

/-- C9 witness load result. -/
def c9res : Option (PCB × Memory) :=
  loadProgramIntoMemory c9drawss c9pcb0 c9mem0 c9instrs

/-- C9 witness loaded PCB. -/
def c9p2 : PCB :=
  (c9res.getD (c9pcb0, c9mem0)).1

/-- C9 witness loaded memory. -/
def c9m2 : Memory :=
  (c9res.getD (c9pcb0, c9mem0)).2

/-- C10 memory: only frame 0 allocated, so frames 1..9 are free. -/
def c10mem : Memory :=
  { mem0 with allocated := fun i => i == 0 }

/-- C10 unlucky draw stream: twenty draws of the allocated frame 0. -/
def c10drawsBad : List (Fin 10) :=
  List.replicate 20 0

/-- C10 lucky draw stream: frame 1 on the first draw. -/
def c10drawsGood : List (Fin 10) :=
  [1]

/-- C10 one-instruction program (one page needed). -/
def c10instrs : List (List Char) :=
  ["GD10".toList]

/-- C10 unlucky per-call draw streams for the loader. -/
def c10drawssA : List (List (Fin 10)) :=
  [c10drawsBad]

/-- C10 lucky per-call draw streams for the loader. -/
def c10drawssB : List (List (Fin 10)) :=
  [c10drawsGood]

/-- C3: the address mapper decides in the claimed order — VA range check
(operand error), then page/valid/frame checks (page fault), then the RA
range check (operand error), else success with `RA = frame*10 + offset`;
in particular `VA = 99` with a valid page succeeds and `VA = 100` is an
operand error. -/
theorem c3_addressMap_matches_spec :
    (∀ (pt : Nat → PageTableEntry) (VA : Int), addressMap pt VA = addressMapSpec pt VA) ∧
    addressMap demoPT 99 = MapResult.ok 59 ∧
    addressMap demoPT 100 = MapResult.fault PI_OPERAND_ERR := by
  refine ⟨fun pt VA => ?_, by decide, by decide⟩
  unfold addressMap addressMapSpec
  split_ifs <;> tauto

/-- C1: on `GD 10` the code does not behave as claimed.  The read
handler writes the popped card's chunks at virtual addresses derived
from the stale `cpu.RA` (here 40, landing in frame 2 at real addresses
20 and 21), not at the operand address 10 (frame 3, real addresses
30/31, which stay NUL), because the `addressMap` call for the operand is
commented out; and `executeInstruction` then calls `handleTerminate`
inline, so the `GD` terminates the job with a `Normal termination`
record — it is not a read-only instruction. -/
theorem c1_gd_reads_at_stale_ra_and_terminates :
    (handleRead c1pcb c1cpu c1mem).2.2.data 20 = "HELL".toList ∧
    (handleRead c1pcb c1cpu c1mem).2.2.data 21 = "O   ".toList ∧
    (handleRead c1pcb c1cpu c1mem).2.2.data 30 = nulWord ∧
    (handleRead c1pcb c1cpu c1mem).2.2.data 31 = nulWord ∧
    (handleRead c1pcb c1cpu c1mem).1.dataCards = [] ∧
    (executeInstruction c1sys).output = [OutputEvent.termRecord 9 EMCode.EM_NO_ERR 0 0] ∧
    (executeInstruction c1sys).current.isNone = true ∧
    (executeInstruction c1sys).systemRunning = false := by
  decide

/-- C4: with `TLL = 0`, the first `PD` increments `LLC` to 1, emits no
data line, and terminates the job — but the termination record carries
reason `EM_INVALID_PAGE` ("Invalid page access"), not `LINE_LIMIT`:
`handleWrite` sets `SI = TERM = 3`, and the dispatcher's numeric type
match sends cause 3 to the page-fault entry (priority 2) instead of the
`TERM` entry (priority 0).  `EM_LINE_LIMIT` is never passed to
`terminate` anywhere in the source. -/
theorem c4_line_limit_terminates_invalid_page :
    isRet (loopIter c4sys) = true ∧
    (afterIter c4sys).output = [OutputEvent.termRecord 4 EMCode.EM_INVALID_PAGE 1 1] ∧
    (afterIter c4sys).systemRunning = false ∧
    (afterIter c4sys).current.isNone = true := by
  decide

/-- C5 counterexample: with `PI = OP_ERR` and `SI = WRITE` both pending,
the dispatcher invokes the opcode-error handler (a `PI` cause), yet
afterwards `SI` is 0 rather than keeping its prior value 2 — the
terminate path clears every cause field, so the claim that only the
serviced field is cleared and the others persist is false. -/
theorem c5_dispatch_counterexample :
    c5sys.cpu.SI = 2 ∧ c5sys.cpu.PI = 1 ∧
    (handleInterrupt c5sys).cpu.SI = 0 ∧
    (handleInterrupt c5sys).output =
      [OutputEvent.termRecord 5 EMCode.EM_OP_CODE_ERR 0 0] := by
  decide

/-- C8 counterexample: for the zero-instruction job no page is valid, so
the first iteration fails the instruction-address mapping with
`PI = PAGE_FAULT` before any fetch happens (`IC` and `IR` are
untouched — no "empty word" is ever fetched), and after 50 iterations of
the outer run loop the system is still running with no output: the
executor does not stop cleanly. -/
theorem c8_zero_instruction_counterexample :
    isRet (loopIter c8sys0) = true ∧
    (afterIter c8sys0).cpu.PI = PI_PAGE_FAULT ∧
    (afterIter c8sys0).cpu.IC = 0 ∧
    (afterIter c8sys0).cpu.IR = nulWord ∧
    (afterIter c8sys0).output = [] ∧
    (runLoop 50 1 c8sys0).systemRunning = true ∧
    (runLoop 50 1 c8sys0).output = [] := by
  decide

/-- C8 amended: with zero instructions no page-table entry is valid, so
the first iteration fails the instruction-address mapping with
`PI = PAGE_FAULT` and `executeJob` returns without terminating the job
and without emitting anything; the resulting state is a fixed point of
the outer run loop with `systemRunning` still true, so the system never
halts and no termination block is ever emitted. -/
theorem c8_zero_instruction_diverges :
    afterIter c8sys0 = c8sys1 ∧
    (∀ n jf, runLoop n jf c8sys1 = c8sys1) ∧
    c8sys1.systemRunning = true ∧
    c8sys1.cpu.PI = PI_PAGE_FAULT ∧
    c8sys1.output = [] ∧
    c8sys1.current.map PCB.terminated = some false := by
  have hexec : ∀ jf, executeJob jf c8sys1 = c8sys1 := by
    intro jf
    cases jf with
    | zero => rfl
    | succ k => rfl
  refine ⟨rfl, ?_, rfl, rfl, rfl, rfl⟩
  intro n jf
  induction n with
  | zero => rfl
  | succ m ih =>
    have hstep : runLoop (m + 1) jf c8sys1 = runLoop m jf (executeJob jf c8sys1) := rfl
    rw [hstep, hexec jf, ih]

/-- `saveContext` leaves the output untouched. -/
theorem saveContext_output (s : Sys) : (saveContext s).output = s.output := by
  unfold saveContext
  cases s.current <;> rfl

/-- `saveContext` leaves the CPU untouched. -/
theorem saveContext_cpu (s : Sys) : (saveContext s).cpu = s.cpu := by
  unfold saveContext
  cases s.current <;> rfl

/-- `saveContext` leaves the global timer untouched. -/
theorem saveContext_globalTimer (s : Sys) : (saveContext s).globalTimer = s.globalTimer := by
  unfold saveContext
  cases s.current <;> rfl

/-- `restoreContext` leaves the output untouched. -/
theorem restoreContext_output (s : Sys) : (restoreContext s).output = s.output := by
  unfold restoreContext
  cases s.current
  · rfl
  · dsimp only
    split <;> rfl

/-- `restoreContext` leaves the global timer untouched. -/
theorem restoreContext_globalTimer (s : Sys) : (restoreContext s).globalTimer = s.globalTimer := by
  unfold restoreContext
  cases s.current
  · rfl
  · dsimp only
    split <;> rfl

/-- `restoreContext` leaves `TI` untouched. -/
theorem restoreContext_TI (s : Sys) : (restoreContext s).cpu.TI = s.cpu.TI := by
  unfold restoreContext
  cases s.current
  · rfl
  · dsimp only
    split <;> rfl

/-- `restoreContext` leaves `PI` untouched. -/
theorem restoreContext_PI (s : Sys) : (restoreContext s).cpu.PI = s.cpu.PI := by
  unfold restoreContext
  cases s.current
  · rfl
  · dsimp only
    split <;> rfl

/-- `restoreContext` leaves `SI` untouched. -/
theorem restoreContext_SI (s : Sys) : (restoreContext s).cpu.SI = s.cpu.SI := by
  unfold restoreContext
  cases s.current
  · rfl
  · dsimp only
    split <;> rfl

/-- `bumpTimers` leaves the output untouched. -/
theorem bumpTimers_output (s : Sys) : (bumpTimers s).output = s.output := by
  unfold bumpTimers
  cases s.current <;> rfl

/-- `bumpTimers` leaves the CPU untouched. -/
theorem bumpTimers_cpu (s : Sys) : (bumpTimers s).cpu = s.cpu := by
  unfold bumpTimers
  cases s.current <;> rfl

/-- `bumpTimers` advances the global timer by one. -/
theorem bumpTimers_globalTimer (s : Sys) : (bumpTimers s).globalTimer = s.globalTimer + 1 := by
  unfold bumpTimers
  cases s.current <;> rfl

/-- `terminate` leaves the global timer untouched. -/
theorem terminate_globalTimer (code : EMCode) (s : Sys) :
    (terminate code s).globalTimer = s.globalTimer := by
  unfold terminate terminateCore
  cases s.current
  · rfl
  · cases s.readyQueue <;> rfl

/-- On a live current PCB, `terminate` clears all three cause fields and
appends exactly the termination record of that PCB. -/
theorem terminate_causes (code : EMCode) (s : Sys) (p : PCB) (h : s.current = some p) :
    (terminate code s).cpu.TI = 0 ∧ (terminate code s).cpu.PI = 0 ∧
    (terminate code s).cpu.SI = 0 ∧
    (terminate code s).output = s.output ++ [OutputEvent.termRecord p.pid code p.TTC p.LLC] := by
  unfold terminate terminateCore
  rw [h]
  cases s.readyQueue <;> simp

/-- `terminate` preserves a clear `TI`. -/
theorem terminate_TI0 (code : EMCode) (s : Sys) (h : s.cpu.TI = 0) :
    (terminate code s).cpu.TI = 0 := by
  cases hc : s.current
  · unfold terminate terminateCore
    rw [hc]
    exact h
  · exact (terminate_causes code s _ hc).1

/-- `terminate` with a reason other than `TIME_LIMIT` adds no
`TIME_LIMIT` record. -/
theorem terminate_filterTL (code : EMCode) (s : Sys) (hcode : code ≠ EMCode.EM_TIME_LIMIT) :
    (terminate code s).output.filter isTL = s.output.filter isTL := by
  cases hc : s.current
  · unfold terminate terminateCore
    rw [hc]
  · have hrec : ∀ pid ttc llc, isTL (OutputEvent.termRecord pid code ttc llc) = false := by
      intro pid ttc llc
      cases code <;> first | rfl | exact absurd rfl hcode
    rw [(terminate_causes code s _ hc).2.2.2]
    simp [List.filter_append, hrec]

/-- The chunk-writing loop leaves `TI` untouched. -/
theorem writeChunksGo_TI (pt : Nat → PageTableEntry) (ra0 : Int) :
    ∀ (ws : List (List Char)) (idx : Nat) (cpu : CPUState) (d : Nat → Word),
      ((writeChunksGo pt ra0 ws idx cpu d).1).TI = cpu.TI := by
  intro ws
  induction ws with
  | nil => intro idx cpu d; rfl
  | cons w ws ih =>
    intro idx cpu d
    unfold writeChunksGo
    cases h : addressMap pt (ra0 + (idx : Int)) with
    | fault pi => rfl
    | ok ra => exact ih (idx + 1) cpu (upd d ra (resizeWord w))

/-- `handleReadS` emits nothing. -/
theorem handleReadS_output (s : Sys) : (handleReadS s).output = s.output := by
  unfold handleReadS
  cases s.current <;> rfl

/-- `handleReadS` leaves the global timer untouched. -/
theorem handleReadS_globalTimer (s : Sys) : (handleReadS s).globalTimer = s.globalTimer := by
  unfold handleReadS
  cases s.current <;> rfl

/-- `handleReadS` leaves `TI` untouched. -/
theorem handleReadS_TI (s : Sys) : (handleReadS s).cpu.TI = s.cpu.TI := by
  unfold handleReadS
  cases s.current with
  | none => rfl
  | some p =>
    show (handleRead p s.cpu s.mem).2.1.TI = s.cpu.TI
    unfold handleRead
    cases p.dataCards with
    | nil => rfl
    | cons d rest => exact writeChunksGo_TI p.pageTable s.cpu.RA (chunkList d) 0 s.cpu s.mem.data

/-- `handleWriteS` appends at most a data line, never a `TIME_LIMIT`
record. -/
theorem handleWriteS_filterTL (s : Sys) :
    (handleWriteS s).output.filter isTL = s.output.filter isTL := by
  unfold handleWriteS handleWrite
  cases s.current with
  | none => rfl
  | some p =>
    dsimp only
    split
    · rfl
    · cases h : addressMap { p with LLC := p.LLC + 1 }.pageTable s.cpu.RA with
      | fault pi => rfl
      | ok ra => simp [List.filter_append, isTL]

/-- `handleWriteS` leaves `TI` untouched. -/
theorem handleWriteS_TI (s : Sys) : (handleWriteS s).cpu.TI = s.cpu.TI := by
  unfold handleWriteS handleWrite
  cases s.current with
  | none => rfl
  | some p =>
    dsimp only
    split
    · rfl
    · cases h : addressMap { p with LLC := p.LLC + 1 }.pageTable s.cpu.RA with
      | fault pi => rfl
      | ok ra => rfl

/-- `handleWriteS` leaves the global timer untouched. -/
theorem handleWriteS_globalTimer (s : Sys) : (handleWriteS s).globalTimer = s.globalTimer := by
  unfold handleWriteS
  cases s.current <;> rfl

/-- `executeArithmeticLogic` emits nothing. -/
theorem executeArithmeticLogic_output (op : List Char) (t : Int) (s : Sys) :
    (executeArithmeticLogic op t s).output = s.output := by
  unfold executeArithmeticLogic
  cases s.current with
  | none => rfl
  | some p =>
    dsimp only
    cases h : addressMap p.pageTable t with
    | fault pi => rfl
    | ok ra => split_ifs <;> rfl

/-- `executeArithmeticLogic` leaves `TI` untouched. -/
theorem executeArithmeticLogic_TI (op : List Char) (t : Int) (s : Sys) :
    (executeArithmeticLogic op t s).cpu.TI = s.cpu.TI := by
  unfold executeArithmeticLogic
  cases s.current with
  | none => rfl
  | some p =>
    dsimp only
    cases h : addressMap p.pageTable t with
    | fault pi => rfl
    | ok ra => split_ifs <;> rfl

/-- `executeArithmeticLogic` leaves the global timer untouched. -/
theorem executeArithmeticLogic_globalTimer (op : List Char) (t : Int) (s : Sys) :
    (executeArithmeticLogic op t s).globalTimer = s.globalTimer := by
  unfold executeArithmeticLogic
  cases s.current with
  | none => rfl
  | some p =>
    dsimp only
    cases h : addressMap p.pageTable t with
    | fault pi => rfl
    | ok ra => split_ifs <;> rfl

/-- The scan loop either keeps the incoming best entry or returns some
table entry whose type equals the scanned cause. -/
theorem scanEntries_inv (cause : Nat) :
    ∀ (l : List IVEntry) (best : Option IVEntry) (hp : Int),
      (scanEntries cause l best hp).1 = best ∨
      ∃ e, e ∈ l ∧ (scanEntries cause l best hp).1 = some e ∧ e.ty = cause := by
  intro l
  induction l with
  | nil => intro best hp; left; rfl
  | cons e rest ih =>
    intro best hp
    unfold scanEntries
    split
    case isTrue h =>
      rcases ih (some e) e.pr with h1 | ⟨e2, hm, heq, hty⟩
      · right; exact ⟨e, List.mem_cons_self e rest, h1, h.1⟩
      · right; exact ⟨e2, List.mem_cons_of_mem e hm, heq, hty⟩
    case isFalse h =>
      rcases ih best hp with h1 | ⟨e2, hm, heq, hty⟩
      · left; exact h1
      · right; exact ⟨e2, List.mem_cons_of_mem e hm, heq, hty⟩

/-- With `TI = 0`, a selected vector entry comes from the table and has
a nonzero type (so it is never the timer entry). -/
theorem selectEntry_ti0 (pi si : Nat) (e : IVEntry) (h : selectEntry 0 pi si = some e) :
    e ∈ ivt ∧ e.ty ≠ 0 := by
  have key : ∀ (cause : Nat) (b : Option IVEntry) (hp : Int),
      cause ≠ 0 →
      (∀ eb, b = some eb → eb ∈ ivt ∧ eb.ty ≠ 0) →
      ∀ e2, (scanEntries cause ivt b hp).1 = some e2 → e2 ∈ ivt ∧ e2.ty ≠ 0 := by
    intro cause b hp hc hb e2 he2
    rcases scanEntries_inv cause ivt b hp with h1 | ⟨e3, hm, heq, hty⟩
    · rw [h1] at he2
      exact hb e2 he2
    · rw [heq] at he2
      injection he2 with he2
      subst he2
      exact ⟨hm, by rw [hty]; exact hc⟩
  by_cases hpi : pi = 0 <;> by_cases hsi : si = 0
  · subst hpi; subst hsi
    have hnone : selectEntry 0 0 0 = none := rfl
    rw [hnone] at h
    cases h
  · subst hpi
    have hsel : selectEntry 0 0 si = (scanEntries si ivt none (-1)).1 := by
      simp [selectEntry, hsi]
    rw [hsel] at h
    exact key si none (-1) hsi (by intro eb hb; cases hb) e h
  · subst hsi
    have hsel : selectEntry 0 pi 0 = (scanEntries pi ivt none (-1)).1 := by
      simp [selectEntry, hpi]
    rw [hsel] at h
    exact key pi none (-1) hpi (by intro eb hb; cases hb) e h
  · have hsel : selectEntry 0 pi si =
        (scanEntries si ivt (scanEntries pi ivt none (-1)).1 (scanEntries pi ivt none (-1)).2).1 := by
      simp [selectEntry, hpi, hsi]
    rw [hsel] at h
    refine key si _ _ hsi ?_ e h
    intro eb hb
    exact key pi none (-1) hpi (by intro ec hc; cases hc) eb hb

/-- A non-timer handler adds no `TIME_LIMIT` record. -/
theorem runHandler_filterTL (h : HandlerId) (s : Sys) (hh : h ≠ HandlerId.timer) :
    (runHandler h s).output.filter isTL = s.output.filter isTL := by
  cases h
  · exact absurd rfl hh
  · exact terminate_filterTL _ _ (by decide)
  · exact terminate_filterTL _ _ (by decide)
  · exact terminate_filterTL _ _ (by decide)
  · show (handleReadS s).output.filter isTL = s.output.filter isTL
    rw [handleReadS_output]
  · exact handleWriteS_filterTL s
  · exact terminate_filterTL _ _ (by decide)

/-- Every handler preserves a clear `TI`. -/
theorem runHandler_TI0 (h : HandlerId) (s : Sys) (hTI : s.cpu.TI = 0) :
    (runHandler h s).cpu.TI = 0 := by
  cases h
  · exact terminate_TI0 _ _ hTI
  · exact terminate_TI0 _ _ hTI
  · exact terminate_TI0 _ _ hTI
  · exact terminate_TI0 _ _ hTI
  · show (handleReadS s).cpu.TI = 0
    rw [handleReadS_TI]; exact hTI
  · show (handleWriteS s).cpu.TI = 0
    rw [handleWriteS_TI]; exact hTI
  · exact terminate_TI0 _ _ hTI

/-- With `TI = 0`, the dispatcher never emits a `TIME_LIMIT` record and
leaves `TI` clear: the timer entry can only be selected when `TI` is
set, and every other handler goes through `terminate` with a different
reason or emits nothing. -/
theorem handleInterrupt_TL (s : Sys) (hTI : s.cpu.TI = 0) :
    (handleInterrupt s).output.filter isTL = s.output.filter isTL ∧
    (handleInterrupt s).cpu.TI = 0 := by
  unfold handleInterrupt
  cases hsel : selectEntry s.cpu.TI s.cpu.PI s.cpu.SI with
  | none => exact ⟨rfl, hTI⟩
  | some e =>
    rw [hTI] at hsel
    have he := selectEntry_ti0 _ _ _ hsel
    have hht : e.h ≠ HandlerId.timer := by
      rcases he with ⟨hm, hty⟩
      simp [ivt] at hm
      rcases hm with rfl | rfl | rfl | rfl | rfl | rfl | rfl
      · exact absurd rfl hty
      all_goals decide
    have hTI1 : (saveContext s).cpu.TI = 0 := by rw [saveContext_cpu]; exact hTI
    have h2TL := runHandler_filterTL e.h (saveContext s) hht
    have h2TI := runHandler_TI0 e.h (saveContext s) hTI1
    constructor
    · rw [restoreContext_output]
      calc (runHandler e.h (saveContext s)).output.filter isTL
          = (saveContext s).output.filter isTL := h2TL
        _ = s.output.filter isTL := by rw [saveContext_output]
    · rw [restoreContext_TI]
      dsimp only
      split_ifs <;> simp [h2TI]

/-- With `TI = 0`, `executeInstruction` never emits a `TIME_LIMIT`
record and leaves `TI` clear. -/
theorem executeInstruction_TL (s : Sys) (hTI : s.cpu.TI = 0) :
    (executeInstruction s).output.filter isTL = s.output.filter isTL ∧
    (executeInstruction s).cpu.TI = 0 := by
  unfold executeInstruction
  dsimp only
  split
  · exact ⟨terminate_filterTL _ _ (by decide), terminate_TI0 _ _ hTI⟩
  · split
    · -- GD
      split
      · exact ⟨rfl, hTI⟩
      · refine ⟨(terminate_filterTL _ _ (by decide)).trans ?_, terminate_TI0 _ _ ?_⟩
        · rw [handleReadS_output]
        · rw [handleReadS_TI]; exact hTI
    · split
      · -- PD
        split
        · exact ⟨rfl, hTI⟩
        · split
          · exact ⟨rfl, hTI⟩
          · split
            · exact ⟨rfl, hTI⟩
            · refine ⟨handleWriteS_filterTL _, ?_⟩
              rw [handleWriteS_TI]; exact hTI
      · split
        · -- H
          exact handleInterrupt_TL _ hTI
        · split
          · -- arithmetic
            split
            · exact ⟨rfl, hTI⟩
            · refine ⟨by rw [executeArithmeticLogic_output], ?_⟩
              rw [executeArithmeticLogic_TI]; exact hTI
          · exact ⟨terminate_filterTL _ _ (by decide), terminate_TI0 _ _ hTI⟩

/-- `contextSwitch` leaves the output untouched. -/
theorem contextSwitch_output (s : Sys) : (contextSwitch s).output = s.output := by
  unfold contextSwitch
  cases hc : s.current with
  | none => simp [saveContext, hc]
  | some p =>
    cases hq : s.readyQueue with
    | nil => simp [saveContext, hc, hq]
    | cons q rest =>
      simp only [saveContext, hc, hq]
      rw [restoreContext_output]

/-- `contextSwitch` leaves `TI` untouched. -/
theorem contextSwitch_TI (s : Sys) : (contextSwitch s).cpu.TI = s.cpu.TI := by
  unfold contextSwitch
  cases hc : s.current with
  | none => simp [saveContext, hc]
  | some p =>
    cases hq : s.readyQueue with
    | nil => simp [saveContext, hc, hq]
    | cons q rest =>
      simp only [saveContext, hc, hq]
      rw [restoreContext_TI]

/-- `contextSwitch` leaves the global timer untouched. -/
theorem contextSwitch_globalTimer (s : Sys) : (contextSwitch s).globalTimer = s.globalTimer := by
  unfold contextSwitch
  cases hc : s.current with
  | none => simp [saveContext, hc]
  | some p =>
    cases hq : s.readyQueue with
    | nil => simp [saveContext, hc, hq]
    | cons q rest =>
      simp only [saveContext, hc, hq]
      rw [restoreContext_globalTimer]

/-- `preemptCheck` leaves the output untouched. -/
theorem preemptCheck_output (s : Sys) : (preemptCheck s).output = s.output := by
  unfold preemptCheck
  split
  · exact contextSwitch_output s
  · rfl

/-- `preemptCheck` leaves `TI` untouched. -/
theorem preemptCheck_TI (s : Sys) : (preemptCheck s).cpu.TI = s.cpu.TI := by
  unfold preemptCheck
  split
  · exact contextSwitch_TI s
  · rfl

/-- `preemptCheck` leaves the global timer untouched. -/
theorem preemptCheck_globalTimer (s : Sys) : (preemptCheck s).globalTimer = s.globalTimer := by
  unfold preemptCheck
  split
  · exact contextSwitch_globalTimer s
  · rfl

/-- With `TI = 0`, the instruction phase never emits a `TIME_LIMIT`
record (in particular, the inner `TTC >= TTL` check sits in the `else`
of an identical guard and is unreachable) and leaves `TI` clear. -/
theorem instrPhase_TL (s : Sys) (hTI : s.cpu.TI = 0) :
    (stepState (instrPhase s)).output.filter isTL = s.output.filter isTL ∧
    (stepState (instrPhase s)).cpu.TI = 0 := by
  have hgen : ∀ s1 : Sys, s1.cpu.TI = 0 → s1.output = s.output →
      (stepState (StepRes.cont (bumpTimers (executeInstruction s1)))).output.filter isTL =
        s.output.filter isTL ∧
      (stepState (StepRes.cont (bumpTimers (executeInstruction s1)))).cpu.TI = 0 := by
    intro s1 h1 hout
    constructor
    · show (bumpTimers (executeInstruction s1)).output.filter isTL = _
      rw [bumpTimers_output, (executeInstruction_TL s1 h1).1, hout]
    · show (bumpTimers (executeInstruction s1)).cpu.TI = 0
      rw [bumpTimers_cpu]
      exact (executeInstruction_TL s1 h1).2
  unfold instrPhase
  cases hc : s.current with
  | none => exact ⟨rfl, hTI⟩
  | some p =>
    dsimp only
    split
    · exact ⟨rfl, hTI⟩
    · split
      · exact ⟨rfl, hTI⟩
      · split
        · exact ⟨rfl, hTI⟩
        · split
          · exact ⟨rfl, hTI⟩
          · exact hgen _ hTI rfl

/-- C2: the claimed `TIME_LIMIT` termination can never happen.  The
while-loop guard `TTC < TTL` makes the inner `TTC >= TTL` check dead
code, and `TI` is never raised anywhere, so as long as `TI = 0` no loop
iteration ever adds a `TIME_LIMIT` record (first conjunct, which also
shows `TI` stays 0 so this holds inductively along any run).  A `TTL =
1` job (scenario: `LR00` at address 0) executes exactly one instruction
and then `executeJob` simply returns: the job is not terminated, no
record at all is emitted, and `run` will spin on it forever. -/
theorem c2_ttl_guard_never_emits_time_limit :
    (∀ s : Sys, s.cpu.TI = 0 →
      (afterIter s).output.filter isTL = s.output.filter isTL ∧
      (afterIter s).cpu.TI = 0) ∧
    (executeJob 3 c2sys).output = [] ∧
    (executeJob 3 c2sys).current.map PCB.TTC = some 1 ∧
    (executeJob 3 c2sys).current.map PCB.terminated = some false := by
  refine ⟨?_, by decide, by decide, by decide⟩
  intro s hTI
  have hip := instrPhase_TL s hTI
  unfold afterIter loopIter
  cases hr : instrPhase s with
  | ret e =>
    rw [hr] at hip
    exact hip
  | cont s3 =>
    rw [hr] at hip
    rw [stepState] at hip
    dsimp only
    by_cases hp : s3.cpu.SI ≠ 0 ∨ s3.cpu.PI ≠ 0 ∨ s3.cpu.TI ≠ 0
    · rw [if_pos hp]
      have hhi := handleInterrupt_TL s3 hip.2
      by_cases hd : currentDead (handleInterrupt s3) = true
      · rw [if_pos hd]
        exact ⟨hhi.1.trans hip.1, hhi.2⟩
      · rw [if_neg hd]
        constructor
        · show (preemptCheck (handleInterrupt s3)).output.filter isTL = _
          rw [preemptCheck_output]
          exact hhi.1.trans hip.1
        · show (preemptCheck (handleInterrupt s3)).cpu.TI = 0
          rw [preemptCheck_TI]
          exact hhi.2
    · rw [if_neg hp]
      constructor
      · show (preemptCheck s3).output.filter isTL = _
        rw [preemptCheck_output]
        exact hip.1
      · show (preemptCheck s3).cpu.TI = 0
        rw [preemptCheck_TI]
        exact hip.2

/-- A scan that starts at the timer priority 3 never replaces the best
entry: no table entry has a higher priority. -/
theorem scanEntries_hp3 (cause : Nat) (best : Option IVEntry) :
    scanEntries cause ivt best 3 = (best, 3) := by
  norm_num [scanEntries, ivt]

/-- With `TI` set, the dispatcher always selects the timer entry. -/
theorem selectEntry_timer (ti pi si : Nat) (h : ti ≠ 0) :
    selectEntry ti pi si = some ⟨0, 3, HandlerId.timer⟩ := by
  unfold selectEntry
  rw [if_pos h]
  by_cases hpi : pi ≠ 0 <;> by_cases hsi : si ≠ 0 <;>
    simp [hpi, hsi, scanEntries_hp3]

/-- Dispatching an entry whose handler terminates: the job's record is
appended and all three cause fields end up clear (whatever was pending),
because `terminate` resets `TI`, `SI` and `PI` unconditionally. -/
theorem dispatch_term (s : Sys) (p : PCB) (e : IVEntry) (c : EMCode)
    (hp : s.current = some p)
    (hsel : selectEntry s.cpu.TI s.cpu.PI s.cpu.SI = some e)
    (hc : handlerCode e.h = some c) :
    (handleInterrupt s).cpu.TI = 0 ∧ (handleInterrupt s).cpu.PI = 0 ∧
    (handleInterrupt s).cpu.SI = 0 ∧
    (handleInterrupt s).output = s.output ++ [OutputEvent.termRecord p.pid c p.TTC p.LLC] := by
  unfold handleInterrupt
  rw [hsel]
  dsimp only
  have hsc : (saveContext s).current =
      some { p with context := ⟨s.cpu.IC, ProcessState.BLOCKED⟩ } := by
    unfold saveContext
    rw [hp]
  have hrh : runHandler e.h (saveContext s) = terminate c (saveContext s) := by
    cases he : e.h <;> rw [he] at hc <;> simp [handlerCode] at hc <;> subst hc <;> rfl
  rw [hrh]
  obtain ⟨hti, hpi2, hsi2, hout⟩ := terminate_causes c (saveContext s) _ hsc
  refine ⟨?_, ?_, ?_, ?_⟩
  · rw [restoreContext_TI]
    dsimp only
    split_ifs <;> simp [hti, hpi2, hsi2]
  · rw [restoreContext_PI]
    dsimp only
    split_ifs <;> simp [hti, hpi2, hsi2]
  · rw [restoreContext_SI]
    dsimp only
    split_ifs <;> simp [hti, hpi2, hsi2]
  · rw [restoreContext_output]
    show (terminate c (saveContext s)).output = _
    rw [hout, saveContext_output]

/-- C5 amended: whenever any cause is pending on a live current PCB (and
`PI`, `SI` hold reachable values, at most 3), the dispatched handler
always terminates the job: the numeric collision between the `SI` and
`PI` namespaces means pending `SI` causes select the program-error /
page-fault entries, and every such handler runs `terminate`, which
clears all three cause fields.  So after a dispatch no pending cause
survives — exactly one termination record is appended and
`SI = PI = TI = 0`. -/
theorem c5_dispatch_always_terminates_clears_all :
    ∀ (s : Sys) (p : PCB), s.current = some p → s.cpu.PI ≤ 3 → s.cpu.SI ≤ 3 →
      (s.cpu.TI ≠ 0 ∨ s.cpu.PI ≠ 0 ∨ s.cpu.SI ≠ 0) →
      (handleInterrupt s).cpu.TI = 0 ∧ (handleInterrupt s).cpu.PI = 0 ∧
      (handleInterrupt s).cpu.SI = 0 ∧
      (handleInterrupt s).output.length = s.output.length + 1 := by
  intro s p hp hPI hSI hpend
  have main : ∃ e c, selectEntry s.cpu.TI s.cpu.PI s.cpu.SI = some e ∧
      handlerCode e.h = some c := by
    by_cases hti : s.cpu.TI = 0
    · rw [hti]
      have hPI4 : s.cpu.PI = 0 ∨ s.cpu.PI = 1 ∨ s.cpu.PI = 2 ∨ s.cpu.PI = 3 := by omega
      have hSI4 : s.cpu.SI = 0 ∨ s.cpu.SI = 1 ∨ s.cpu.SI = 2 ∨ s.cpu.SI = 3 := by omega
      rcases hPI4 with h1 | h1 | h1 | h1 <;> rcases hSI4 with h2 | h2 | h2 | h2 <;>
        rw [h1, h2] <;>
        first
          | exact ⟨⟨1, 1, HandlerId.opErr⟩, EMCode.EM_OP_CODE_ERR, by decide, rfl⟩
          | exact ⟨⟨2, 1, HandlerId.operandErr⟩, EMCode.EM_OPERAND_ERR, by decide, rfl⟩
          | exact ⟨⟨3, 2, HandlerId.pageFault⟩, EMCode.EM_INVALID_PAGE, by decide, rfl⟩
          | (simp [hti, h1, h2] at hpend)
    · exact ⟨⟨0, 3, HandlerId.timer⟩, EMCode.EM_TIME_LIMIT, selectEntry_timer _ _ _ hti, rfl⟩
  obtain ⟨e, c, hsel, hc⟩ := main
  obtain ⟨h1, h2, h3, h4⟩ := dispatch_term s p e c hp hsel hc
  refine ⟨h1, h2, h3, ?_⟩
  rw [h4]
  simp

/-- The dispatcher leaves the global timer untouched. -/
theorem handleInterrupt_globalTimer (s : Sys) :
    (handleInterrupt s).globalTimer = s.globalTimer := by
  unfold handleInterrupt
  cases hsel : selectEntry s.cpu.TI s.cpu.PI s.cpu.SI with
  | none => rfl
  | some e =>
    dsimp only
    rw [restoreContext_globalTimer]
    show (runHandler e.h (saveContext s)).globalTimer = _
    have hrh : ∀ s1 : Sys, (runHandler e.h s1).globalTimer = s1.globalTimer := by
      intro s1
      cases e.h <;>
        simp [runHandler, terminate_globalTimer, handleReadS_globalTimer,
          handleWriteS_globalTimer]
    rw [hrh, saveContext_globalTimer]

/-- `executeInstruction` leaves the global timer untouched (every path
either mutates CPU/memory or goes through `terminate`, the dispatcher or
the I/O handlers, none of which touch the timer). -/
theorem executeInstruction_globalTimer (s : Sys) :
    (executeInstruction s).globalTimer = s.globalTimer := by
  unfold executeInstruction
  dsimp only
  split
  · exact terminate_globalTimer _ _
  · split
    · split
      · rfl
      · rw [terminate_globalTimer, handleReadS_globalTimer]
    · split
      · split
        · rfl
        · split
          · rfl
          · split
            · rfl
            · exact handleWriteS_globalTimer _
      · split
        · exact handleInterrupt_globalTimer _
        · split
          · split
            · rfl
            · exact executeArithmeticLogic_globalTimer _ _ _
          · exact terminate_globalTimer _ _

/-- C7: the preemption mechanism, in four parts.  (1) Every completed
instruction advances the global tick by exactly one.  (2) When the
completed instruction left no cause pending, the iteration ends in the
preemption check.  (3) The preemption check does nothing unless the
global tick is a multiple of 10 and the ready queue is nonempty.
(4) When the tick is a multiple of 10 and the queue is nonempty, the
current context is saved (state `BLOCKED`, `IC` recorded), the current
PCB is enqueued at the tail, the head of the queue becomes current and
its context is restored.  Together: preemption happens exactly at
nonempty-queue multiples of 10, so between two successive preemptions
exactly 10 instructions execute unless the job terminates sooner. -/
theorem c7_preemption_characterization :
    (∀ s s3 : Sys, instrPhase s = StepRes.cont s3 → s3.globalTimer = s.globalTimer + 1) ∧
    (∀ s s3 : Sys, instrPhase s = StepRes.cont s3 →
      s3.cpu.SI = 0 → s3.cpu.PI = 0 → s3.cpu.TI = 0 →
      loopIter s = StepRes.cont (preemptCheck s3)) ∧
    (∀ s2 : Sys, (s2.globalTimer % 10 ≠ 0 ∨ s2.readyQueue = []) → preemptCheck s2 = s2) ∧
    (∀ (s2 : Sys) (p q : PCB) (rest : List PCB),
      s2.globalTimer % 10 = 0 → s2.current = some p → s2.readyQueue = q :: rest →
      preemptCheck s2 = restoreContext
        { s2 with
          current := some q
          readyQueue := rest ++ [{ p with context := ⟨s2.cpu.IC, ProcessState.BLOCKED⟩ }] }) := by
  refine ⟨?_, ?_, ?_, ?_⟩
  · intro s s3 h
    unfold instrPhase at h
    cases hc : s.current
    · rw [hc] at h
      simp at h
    · rw [hc] at h
      dsimp only at h
      split at h
      · simp at h
      · split at h
        · simp at h
        · split at h
          · simp at h
          · split at h
            · simp at h
            · simp only [StepRes.cont.injEq] at h
              subst h
              rw [bumpTimers_globalTimer, executeInstruction_globalTimer]
  · intro s s3 h hSI hPI hTI
    unfold loopIter
    rw [h]
    dsimp only
    rw [if_neg (by simp [hSI, hPI, hTI])]
  · intro s2 h
    unfold preemptCheck
    rcases h with h | h
    · rw [if_neg (fun hc => h hc.1)]
    · rw [if_neg (fun hc => by rw [h] at hc; simp at hc)]
  · intro s2 p q rest ht hcur hq
    unfold preemptCheck
    rw [if_pos ⟨ht, by rw [hq]; rfl⟩]
    unfold contextSwitch
    have hs1 : saveContext s2 =
        { s2 with current := some { p with context := ⟨s2.cpu.IC, ProcessState.BLOCKED⟩ } } := by
      unfold saveContext
      rw [hcur]
    rw [hs1]
    dsimp only
    rw [hq]

/-- `releaseFrame` clears this frame's allocation bit. -/
theorem releaseFrame_allocated_self (f : Nat) (m : Memory) :
    (releaseFrame f m).allocated f = false := by
  unfold releaseFrame upd
  simp

/-- `releaseFrame` clears this frame's lock bit. -/
theorem releaseFrame_locked_self (f : Nat) (m : Memory) :
    (releaseFrame f m).locked f = false := by
  unfold releaseFrame upd
  simp

/-- `releaseFrame` zeroes this frame's words. -/
theorem releaseFrame_data_self (f : Nat) (m : Memory) (k : Nat)
    (h1 : f * 10 ≤ k) (h2 : k < f * 10 + 10) :
    (releaseFrame f m).data k = nulWord := by
  unfold releaseFrame clearFrameData
  dsimp only
  rw [if_pos ⟨h1, h2⟩]

/-- `releaseFrame` never sets an allocation bit. -/
theorem releaseFrame_allocated_mono (f : Nat) (m : Memory) (g : Nat)
    (h : m.allocated g = false) : (releaseFrame f m).allocated g = false := by
  unfold releaseFrame upd
  dsimp only
  split
  · rfl
  · exact h

/-- `releaseFrame` never sets a lock bit. -/
theorem releaseFrame_locked_mono (f : Nat) (m : Memory) (g : Nat)
    (h : m.locked g = false) : (releaseFrame f m).locked g = false := by
  unfold releaseFrame upd
  dsimp only
  split
  · rfl
  · exact h

/-- `releaseFrame` writes only NUL words. -/
theorem releaseFrame_data_mono (f : Nat) (m : Memory) (k : Nat)
    (h : m.data k = nulWord) : (releaseFrame f m).data k = nulWord := by
  unfold releaseFrame clearFrameData
  dsimp only
  split
  · rfl
  · exact h

/-- The page-table release loop never sets an allocation bit. -/
theorem releaseEntries_allocated_mono :
    ∀ (idxs : List Nat) (pt : Nat → PageTableEntry) (m : Memory) (g : Nat),
      m.allocated g = false → (releaseEntries idxs pt m).2.allocated g = false := by
  intro idxs
  induction idxs with
  | nil => intro pt m g h; exact h
  | cons j rest ih =>
    intro pt m g h
    unfold releaseEntries
    split
    · dsimp only
      apply ih
      split
      · exact releaseFrame_allocated_mono _ _ _ h
      · exact h
    · exact ih pt m g h

/-- The page-table release loop never sets a lock bit. -/
theorem releaseEntries_locked_mono :
    ∀ (idxs : List Nat) (pt : Nat → PageTableEntry) (m : Memory) (g : Nat),
      m.locked g = false → (releaseEntries idxs pt m).2.locked g = false := by
  intro idxs
  induction idxs with
  | nil => intro pt m g h; exact h
  | cons j rest ih =>
    intro pt m g h
    unfold releaseEntries
    split
    · dsimp only
      apply ih
      split
      · exact releaseFrame_locked_mono _ _ _ h
      · exact h
    · exact ih pt m g h

/-- The page-table release loop writes only NUL words. -/
theorem releaseEntries_data_mono :
    ∀ (idxs : List Nat) (pt : Nat → PageTableEntry) (m : Memory) (k : Nat),
      m.data k = nulWord → (releaseEntries idxs pt m).2.data k = nulWord := by
  intro idxs
  induction idxs with
  | nil => intro pt m k h; exact h
  | cons j rest ih =>
    intro pt m k h
    unfold releaseEntries
    split
    · dsimp only
      apply ih
      split
      · exact releaseFrame_data_mono _ _ _ h
      · exact h
    · exact ih pt m k h

/-- An entry that is already invalid stays invalid through the release
loop (the loop only ever writes `valid := false`). -/
theorem releaseEntries_valid_mono :
    ∀ (idxs : List Nat) (pt : Nat → PageTableEntry) (m : Memory) (i : Nat),
      (pt i).valid = false → ((releaseEntries idxs pt m).1 i).valid = false := by
  intro idxs
  induction idxs with
  | nil => intro pt m i h; exact h
  | cons j rest ih =>
    intro pt m i h
    unfold releaseEntries
    split
    · dsimp only
      apply ih
      unfold upd
      split
      · rfl
      · exact h
    · exact ih pt m i h

/-- The release loop invalidates every processed valid entry and clears
the allocation bit of its (in-range) frame. -/
theorem releaseEntries_releases :
    ∀ (idxs : List Nat) (pt : Nat → PageTableEntry) (m : Memory) (i : Nat),
      i ∈ idxs → (pt i).valid = true →
      0 ≤ (pt i).frame → (pt i).frame < 10 →
      ((releaseEntries idxs pt m).1 i).valid = false ∧
      (releaseEntries idxs pt m).2.allocated (pt i).frame.toNat = false := by
  intro idxs
  induction idxs with
  | nil => intro pt m i hi; simp at hi
  | cons j rest ih =>
    intro pt m i hi hv h0 h10
    unfold releaseEntries
    by_cases hij : i = j
    · subst hij
      rw [if_pos hv]
      dsimp only
      constructor
      · apply releaseEntries_valid_mono
        unfold upd
        simp
      · apply releaseEntries_allocated_mono
        rw [if_pos ⟨h0, h10⟩]
        exact releaseFrame_allocated_self _ _
    · have hir : i ∈ rest := by
        rcases List.mem_cons.mp hi with h | h
        · exact absurd h hij
        · exact h
      have hupd : upd pt j ⟨(pt j).frame, false⟩ i = pt i := by
        unfold upd
        rw [if_neg hij]
      split
      · dsimp only
        have := ih (upd pt j ⟨(pt j).frame, false⟩)
          (if 0 ≤ (pt j).frame ∧ (pt j).frame < 10 then releaseFrame (pt j).frame.toNat m else m)
          i hir (by rw [hupd]; exact hv) (by rw [hupd]; exact h0) (by rw [hupd]; exact h10)
        rw [hupd] at this
        exact this
      · exact ih pt m i hir hv h0 h10

/-- C6: the moment a PCB enters `TERMINATED` inside `terminate`, its
page-table frame's allocation bit is clear, that frame's words are all
NUL and its lock bit is clear, and every formerly valid page-table entry
has been invalidated with its frame's allocation bit cleared — no frame
remains allocated on the terminated PCB's behalf.  Hypotheses: the PCB
has a page-table frame (`0 ≤ PTR < 100`, the loader always sets
`PTR = frame * 10`) and its valid entries hold in-range frames (the
loader only stores frames returned by `allocateFrame`). -/
theorem c6_terminate_releases_resources :
    ∀ (code : EMCode) (s : Sys) (p : PCB), s.current = some p →
      0 ≤ p.PTR → p.PTR < 100 →
      (∀ i, i < 10 → (p.pageTable i).valid = true →
        0 ≤ (p.pageTable i).frame ∧ (p.pageTable i).frame < 10) →
      ∃ p2, (terminateCore code s).1 = some p2 ∧
        p2.terminated = true ∧
        p2.context.state = ProcessState.TERMINATED ∧
        (terminateCore code s).2.mem.allocated (p.PTR.toNat / 10) = false ∧
        (∀ k, (p.PTR.toNat / 10) * 10 ≤ k → k < (p.PTR.toNat / 10) * 10 + 10 →
          (terminateCore code s).2.mem.data k = nulWord) ∧
        (terminateCore code s).2.mem.locked (p.PTR.toNat / 10) = false ∧
        (∀ i, i < 10 → (p.pageTable i).valid = true →
          (p2.pageTable i).valid = false ∧
          (terminateCore code s).2.mem.allocated (p.pageTable i).frame.toNat = false) := by
  intro code s p hcur h0 h100 hpt
  have hPTRne : p.PTR ≠ -1 := by omega
  have hmem : ∀ (m2 : Memory), m2 = releaseFrame (p.PTR.toNat / 10) s.mem →
      (releaseEntries (List.range 10) p.pageTable m2).2.allocated (p.PTR.toNat / 10) = false ∧
      (∀ k, (p.PTR.toNat / 10) * 10 ≤ k → k < (p.PTR.toNat / 10) * 10 + 10 →
        (releaseEntries (List.range 10) p.pageTable m2).2.data k = nulWord) ∧
      (releaseEntries (List.range 10) p.pageTable m2).2.locked (p.PTR.toNat / 10) = false ∧
      (∀ i, i < 10 → (p.pageTable i).valid = true →
        ((releaseEntries (List.range 10) p.pageTable m2).1 i).valid = false ∧
        (releaseEntries (List.range 10) p.pageTable m2).2.allocated
          (p.pageTable i).frame.toNat = false) := by
    intro m2 hm2
    subst hm2
    refine ⟨?_, ?_, ?_, ?_⟩
    · exact releaseEntries_allocated_mono _ _ _ _ (releaseFrame_allocated_self _ _)
    · intro k hk1 hk2
      exact releaseEntries_data_mono _ _ _ _ (releaseFrame_data_self _ _ _ hk1 hk2)
    · exact releaseEntries_locked_mono _ _ _ _ (releaseFrame_locked_self _ _)
    · intro i hi hv
      exact releaseEntries_releases _ _ _ i (List.mem_range.mpr hi) hv (hpt i hi hv).1
        (hpt i hi hv).2
  obtain ⟨ha, hd, hl, he⟩ := hmem _ rfl
  unfold terminateCore
  rw [hcur]
  dsimp only
  rw [if_pos hPTRne]
  cases hq : s.readyQueue with
  | nil => exact ⟨_, rfl, rfl, rfl, ha, hd, hl, he⟩
  | cons q rest => exact ⟨_, rfl, rfl, rfl, ha, hd, hl, he⟩

/-- The allocator loop returns exactly the first drawn frame whose
allocation bit is false, setting only that bit. -/
theorem allocateFrameGo_spec :
    ∀ (l : List (Fin 10)) (m : Memory),
      allocateFrameGo l m =
        match l.find? (fun d => ! m.allocated d.val) with
        | none => none
        | some d => some (d.val, { m with allocated := upd m.allocated d.val true }) := by
  intro l m
  induction l with
  | nil => rfl
  | cons d rest ih =>
    unfold allocateFrameGo
    by_cases hd : m.allocated d.val = true
    · rw [if_pos hd, ih, List.find?_cons_of_neg _ (by simp [hd])]
    · rw [if_neg hd, List.find?_cons_of_pos _ (by simp [Bool.not_eq_true] at hd ⊢; exact hd)]

/-- C10: `allocateFrame` equals its random-draw specification — it
consumes at most the first 20 draws, returns the first drawn frame whose
allocation bit is false (setting that bit and leaving the data words,
the lock bits and every other allocation bit untouched, as the
`allocateFrameSpec` record shows), and fails exactly when all 20 draws
hit allocated frames.  Consequently an unlucky draw stream makes it fail
while a free frame exists, and the same loader input succeeds or aborts
depending only on the draws: the loader is not deterministic across
runs. -/
theorem c10_allocateFrame_random_characterization :
    (∀ (draws : List (Fin 10)) (m : Memory), allocateFrame draws m = allocateFrameSpec draws m) ∧
    (∀ (draws : List (Fin 10)) (m : Memory),
      allocateFrame draws m = none ↔ ∀ d ∈ draws.take 20, m.allocated d.val = true) ∧
    (allocateFrame c10drawsBad c10mem).isNone = true ∧
    c10mem.allocated 1 = false ∧
    (allocateFrame c10drawsGood c10mem).map Prod.fst = some 1 ∧
    (loadProgramIntoMemory c10drawssA c9pcb0 c10mem c10instrs).isNone = true ∧
    (loadProgramIntoMemory c10drawssB c9pcb0 c10mem c10instrs).isSome = true := by
  have hspec : ∀ (draws : List (Fin 10)) (m : Memory),
      allocateFrame draws m = allocateFrameSpec draws m := by
    intro draws m
    unfold allocateFrame allocateFrameSpec
    exact allocateFrameGo_spec (draws.take 20) m
  refine ⟨hspec, ?_, by decide, by decide, by decide, by decide, by decide⟩
  intro draws m
  rw [hspec]
  unfold allocateFrameSpec
  cases hf : (draws.take 20).find? (fun d => ! m.allocated d.val) with
  | none =>
    constructor
    · intro _ d hd
      have := List.find?_eq_none.mp hf d hd
      simpa using this
    · intro _
      rfl
  | some d =>
    have hdp := List.find?_some hf
    have hdm := List.mem_of_find?_eq_some hf
    constructor
    · intro h
      exact Option.noConfusion h
    · intro hall
      exfalso
      have h2 := hall d hdm
      simp [h2] at hdp

/-- A successful allocation returns an in-range frame whose bit was
clear and sets exactly that bit. -/
theorem allocateFrameGo_some :
    ∀ (l : List (Fin 10)) (m : Memory) (f : Nat) (m2 : Memory),
      allocateFrameGo l m = some (f, m2) →
      f < 10 ∧ m.allocated f = false ∧
      m2 = { m with allocated := upd m.allocated f true } := by
  intro l
  induction l with
  | nil => intro m f m2 h; exact Option.noConfusion h
  | cons d rest ih =>
    intro m f m2 h
    unfold allocateFrameGo at h
    by_cases hd : m.allocated d.val = true
    · rw [if_pos hd] at h
      exact ih m f m2 h
    · rw [if_neg hd] at h
      injection h with h
      rw [Prod.ext_iff] at h
      obtain ⟨h1, h2⟩ := h
      dsimp only at h1 h2
      subst h1
      subst h2
      exact ⟨d.isLt, Bool.eq_false_iff.mpr hd, rfl⟩

/-- `allocateFrame` success facts, at the call interface. -/
theorem allocateFrame_some (draws : List (Fin 10)) (m : Memory) (f : Nat) (m2 : Memory)
    (h : allocateFrame draws m = some (f, m2)) :
    f < 10 ∧ m.allocated f = false ∧
    m2 = { m with allocated := upd m.allocated f true } :=
  allocateFrameGo_some (draws.take 20) m f m2 h

/-- Pointwise description of the instruction-copy loop for one page:
word 0 of the frame gets instruction `2*i` (when it exists), word 1 gets
instruction `2*i+1` (when it exists), and nothing else is written. -/
theorem writePage_apply (f i : Nat) (instrs : List (List Char)) (d : Nat → Word) (k : Nat) :
    writePage f i instrs d k =
      if k = f * 10 ∧ 2 * i < instrs.length then resizeWord (instrs.getD (2 * i) [])
      else if k = f * 10 + 1 ∧ 2 * i + 1 < instrs.length then
        resizeWord (instrs.getD (2 * i + 1) [])
      else d k := by
  unfold writePage
  rcases Nat.lt_or_ge instrs.length (2 * i + 1) with hn | hn
  · have hc : min (2 * i + 2) instrs.length - 2 * i = 0 := by
      have h1 : min (2 * i + 2) instrs.length ≤ instrs.length := Nat.min_le_right _ _
      omega
    rw [hc]
    show d k = _
    rw [if_neg (fun hcon => by omega), if_neg (fun hcon => by omega)]
  · rcases Nat.lt_or_ge instrs.length (2 * i + 2) with hn2 | hn2
    · have hc : min (2 * i + 2) instrs.length - 2 * i = 1 := by
        have h1 : min (2 * i + 2) instrs.length = instrs.length := Nat.min_eq_right (by omega)
        omega
      rw [hc]
      show upd d (f * 10 + (2 * i - 2 * i)) (resizeWord (instrs.getD (2 * i) [])) k = _
      have h0 : 2 * i - 2 * i = 0 := by omega
      rw [h0]
      unfold upd
      by_cases hk : k = f * 10 + 0
      · rw [if_pos hk, if_pos ⟨by omega, by omega⟩]
      · rw [if_neg hk, if_neg (fun hcon => hk (by omega)), if_neg (fun hcon => by omega)]
    · have hc : min (2 * i + 2) instrs.length - 2 * i = 2 := by
        have h1 : min (2 * i + 2) instrs.length = 2 * i + 2 := Nat.min_eq_left (by omega)
        omega
      rw [hc]
      show upd (upd d (f * 10 + (2 * i - 2 * i)) (resizeWord (instrs.getD (2 * i) [])))
          (f * 10 + (2 * i + 1 - 2 * i)) (resizeWord (instrs.getD (2 * i + 1) [])) k = _
      have h0 : 2 * i - 2 * i = 0 := by omega
      have h1 : 2 * i + 1 - 2 * i = 1 := by omega
      rw [h0, h1]
      unfold upd
      by_cases hk1 : k = f * 10 + 1
      · rw [if_pos hk1, if_neg (fun hcon => by omega), if_pos ⟨hk1, by omega⟩]
      · rw [if_neg hk1]
        by_cases hk0 : k = f * 10 + 0
        · rw [if_pos hk0, if_pos ⟨by omega, by omega⟩]
        · rw [if_neg hk0, if_neg (fun hcon => hk0 (by omega)),
            if_neg (fun hcon => hk1 (by omega))]

/-- Pages not in the processed index list keep their table entries. -/
theorem loadPages_pt_preserve (instrs : List (List Char)) :
    ∀ (idxs : List Nat) (drawss : List (List (Fin 10))) (pt : Nat → PageTableEntry)
      (m : Memory) (pt2 : Nat → PageTableEntry) (m2 : Memory),
      loadPages instrs idxs drawss pt m = some (pt2, m2) →
      ∀ i, i ∉ idxs → pt2 i = pt i := by
  intro idxs
  induction idxs with
  | nil =>
    intro drawss pt m pt2 m2 h i _
    injection h with h
    injection h with h1 h2
    rw [← h1]
  | cons j rest ih =>
    intro drawss pt m pt2 m2 h i hi
    unfold loadPages at h
    cases haf : allocateFrame (drawss.headD []) m with
    | none => rw [haf] at h; exact Option.noConfusion h
    | some fm =>
      rw [haf] at h
      dsimp only at h
      have hij : i ≠ j := fun e => hi (e ▸ List.mem_cons_self j rest)
      have hirest : i ∉ rest := fun e => hi (List.mem_cons_of_mem j e)
      have hkeep := ih _ _ _ _ _ h i hirest
      rw [hkeep]
      unfold upd
      rw [if_neg hij]

/-- Frames already allocated before the page loop keep their allocation
bit and their data: each iteration allocates a fresh (unallocated, hence
different) frame and writes only inside that frame's ten words. -/
theorem loadPages_preserve (instrs : List (List Char)) :
    ∀ (idxs : List Nat) (drawss : List (List (Fin 10))) (pt : Nat → PageTableEntry)
      (m : Memory) (pt2 : Nat → PageTableEntry) (m2 : Memory),
      loadPages instrs idxs drawss pt m = some (pt2, m2) →
      ∀ g, g < 10 → m.allocated g = true →
        m2.allocated g = true ∧
        ∀ k, g * 10 ≤ k → k < g * 10 + 10 → m2.data k = m.data k := by
  intro idxs
  induction idxs with
  | nil =>
    intro drawss pt m pt2 m2 h g hg hga
    injection h with h
    injection h with h1 h2
    subst h2
    exact ⟨hga, fun k _ _ => rfl⟩
  | cons j rest ih =>
    intro drawss pt m pt2 m2 h g hg hga
    unfold loadPages at h
    cases haf : allocateFrame (drawss.headD []) m with
    | none => rw [haf] at h; exact Option.noConfusion h
    | some fm =>
      rw [haf] at h
      dsimp only at h
      obtain ⟨hflt, hffree, hm1⟩ := allocateFrame_some _ _ fm.1 fm.2 (by rw [haf])
      have hne : fm.1 ≠ g := by
        intro e
        rw [e] at hffree
        rw [hga] at hffree
        exact Bool.noConfusion hffree
      have hga3 : ({ fm.2 with
          data := writePage fm.1 j instrs (clearFrameData fm.1 fm.2.data) } : Memory).allocated
            g = true := by
        show fm.2.allocated g = true
        rw [hm1]
        show upd m.allocated fm.1 true g = true
        unfold upd
        rw [if_neg (fun e => hne e.symm)]
        exact hga
      have ihres := ih _ _ _ _ _ h g hg hga3
      refine ⟨ihres.1, ?_⟩
      intro k h1 h2
      rw [ihres.2 k h1 h2]
      show writePage fm.1 j instrs (clearFrameData fm.1 fm.2.data) k = m.data k
      rw [writePage_apply]
      unfold clearFrameData
      split_ifs <;> first | (rw [hm1]) | omega

/-- Main loader invariant: every processed page index ends with a fresh
in-range frame, marked valid in the table and allocated in memory, whose
words hold exactly the page's (up to two) instructions and NULs
elsewhere. -/
theorem loadPages_main (instrs : List (List Char)) :
    ∀ (idxs : List Nat) (drawss : List (List (Fin 10))) (pt : Nat → PageTableEntry)
      (m : Memory) (pt2 : Nat → PageTableEntry) (m2 : Memory),
      loadPages instrs idxs drawss pt m = some (pt2, m2) → idxs.Nodup →
      ∀ i ∈ idxs, ∃ f : Nat, f < 10 ∧ pt2 i = ⟨(f : Int), true⟩ ∧ m2.allocated f = true ∧
        ∀ o, o < 10 → m2.data (f * 10 + o) =
          (if o = 0 ∧ 2 * i < instrs.length then resizeWord (instrs.getD (2 * i) [])
           else if o = 1 ∧ 2 * i + 1 < instrs.length then
             resizeWord (instrs.getD (2 * i + 1) [])
           else nulWord) := by
  intro idxs
  induction idxs with
  | nil => intro drawss pt m pt2 m2 h hnd i hi; simp at hi
  | cons j rest ih =>
    intro drawss pt m pt2 m2 h hnd i hi
    unfold loadPages at h
    cases haf : allocateFrame (drawss.headD []) m with
    | none => rw [haf] at h; exact Option.noConfusion h
    | some fm =>
      rw [haf] at h
      dsimp only at h
      obtain ⟨hflt, hffree, hm1⟩ := allocateFrame_some _ _ fm.1 fm.2 (by rw [haf])
      have hm3alloc : ({ fm.2 with
          data := writePage fm.1 j instrs (clearFrameData fm.1 fm.2.data) } : Memory).allocated
            fm.1 = true := by
        show fm.2.allocated fm.1 = true
        rw [hm1]
        show upd m.allocated fm.1 true fm.1 = true
        unfold upd
        rw [if_pos rfl]
      rcases List.mem_cons.mp hi with heq | hir
      · subst heq
        have hnotin : i ∉ rest := (List.nodup_cons.mp hnd).1
        have hpres := loadPages_preserve instrs rest _ _ _ _ _ h fm.1 hflt hm3alloc
        refine ⟨fm.1, hflt, ?_, hpres.1, ?_⟩
        · rw [loadPages_pt_preserve instrs rest _ _ _ _ _ h i hnotin]
          unfold upd
          rw [if_pos rfl]
        · intro o ho
          rw [hpres.2 (fm.1 * 10 + o) (by omega) (by omega)]
          show writePage fm.1 i instrs (clearFrameData fm.1 fm.2.data) (fm.1 * 10 + o) = _
          rw [writePage_apply]
          unfold clearFrameData
          split_ifs <;> first | rfl | omega
      · exact ih _ _ _ _ _ h (List.nodup_cons.mp hnd).2 i hir

/-- Address translation through a table whose page 0 maps to frame `f`:
any virtual address `j ≤ 9` lands at real address `f*10 + j`. -/
theorem addressMap_page0 (pt : Nat → PageTableEntry) (f j : Nat) (hf : f < 10) (hj : j ≤ 9)
    (hpt : pt 0 = ⟨(f : Int), true⟩) :
    addressMap pt (j : Int) = MapResult.ok (f * 10 + j) := by
  unfold addressMap
  have htn : ((j : Nat) : Int).toNat = j := Int.toNat_natCast j
  have hdiv : j / 10 = 0 := Nat.div_eq_of_lt (by omega)
  have hmod : j % 10 = j := Nat.mod_eq_of_lt (by omega)
  rw [if_neg (by omega)]
  rw [htn, hdiv, hpt]
  dsimp only
  rw [if_neg (by omega), if_neg (by simp), if_neg (by omega)]
  rw [Int.toNat_natCast, hmod]
  rw [if_neg (by omega)]

/-- C9: the loader/mapper layout mismatch.  After a successful load of
`n ≥ 1` instructions (with `ceil(n/2) ≤ 10` pages, which the call
context guarantees since the page-table frame is already allocated):
(1) pages `0 .. ceil(n/2)-1` are marked valid; (2) instruction `j` sits
at word `j mod 2` of the frame of page `j div 2`; (3) a fetch at
`IC = j` goes through `addressMap` to word `j` of the frame of page
`j div 10 = 0`, so it retrieves instruction `j` exactly for
`j ∈ {0, 1}`; and (4) for `2 ≤ j ≤ 9` the fetched word is one the
loader never filled — all NUL bytes (so the fetch loop sees an empty
instruction, not instruction `j`). -/
theorem c9_load_fetch_mismatch :
    ∀ (drawss : List (List (Fin 10))) (p : PCB) (m : Memory) (instrs : List (List Char))
      (p2 : PCB) (m2 : Memory),
      loadProgramIntoMemory drawss p m instrs = some (p2, m2) →
      (instrs.length + 1) / 2 ≤ 10 →
      (∀ i : Nat, i < (instrs.length + 1) / 2 → (p2.pageTable i).valid = true) ∧
      (∀ j : Nat, j < instrs.length →
        m2.data ((p2.pageTable (j / 2)).frame.toNat * 10 + j % 2) =
          resizeWord (instrs.getD j [])) ∧
      (∀ j : Nat, j < instrs.length → j < 2 →
        addressMap p2.pageTable (j : Int) =
          MapResult.ok ((p2.pageTable 0).frame.toNat * 10 + j) ∧
        m2.data ((p2.pageTable 0).frame.toNat * 10 + j) = resizeWord (instrs.getD j [])) ∧
      (1 ≤ instrs.length → ∀ j : Nat, 2 ≤ j → j ≤ 9 →
        addressMap p2.pageTable (j : Int) =
          MapResult.ok ((p2.pageTable 0).frame.toNat * 10 + j) ∧
        m2.data ((p2.pageTable 0).frame.toNat * 10 + j) = nulWord) := by
  intro drawss p m instrs p2 m2 h hle
  unfold loadProgramIntoMemory at h
  dsimp only at h
  rw [min_eq_left hle] at h
  cases hlp : loadPages instrs (List.range ((instrs.length + 1) / 2)) drawss
      (fun _ => ⟨-1, false⟩) m with
  | none => rw [hlp] at h; exact Option.noConfusion h
  | some pm =>
    rw [hlp] at h
    dsimp only [Option.map] at h
    injection h with h
    injection h with h1 h2
    subst h2
    have hmain := loadPages_main instrs _ _ _ _ _ _ hlp (List.nodup_range _)
    subst h1
    refine ⟨?_, ?_, ?_, ?_⟩
    · intro i hi
      obtain ⟨f, hf, hpt, _, _⟩ := hmain i (List.mem_range.mpr hi)
      show (pm.1 i).valid = true
      rw [hpt]
    · intro j hj
      have hi2 : j / 2 < (instrs.length + 1) / 2 := by omega
      obtain ⟨f, hf, hpt, hall, hdata⟩ := hmain (j / 2) (List.mem_range.mpr hi2)
      show pm.2.data ((pm.1 (j / 2)).frame.toNat * 10 + j % 2) = _
      rw [hpt]
      dsimp only
      rw [Int.toNat_natCast]
      rw [hdata (j % 2) (by omega)]
      by_cases hpar : j % 2 = 0
      · rw [if_pos ⟨hpar, by omega⟩]
        have hidx : 2 * (j / 2) = j := by omega
        rw [hidx]
      · have hpar1 : j % 2 = 1 := by omega
        rw [if_neg (fun hcon => by omega), if_pos ⟨hpar1, by omega⟩]
        have hidx : 2 * (j / 2) + 1 = j := by omega
        rw [hidx]
    · intro j hj hj2
      have h1n : 0 < (instrs.length + 1) / 2 := by omega
      obtain ⟨f, hf, hpt, hall, hdata⟩ := hmain 0 (List.mem_range.mpr h1n)
      constructor
      · show addressMap pm.1 (j : Int) = MapResult.ok ((pm.1 0).frame.toNat * 10 + j)
        rw [hpt]
        dsimp only
        rw [Int.toNat_natCast]
        exact addressMap_page0 pm.1 f j hf (by omega) hpt
      · show pm.2.data ((pm.1 0).frame.toNat * 10 + j) = _
        rw [hpt]
        dsimp only
        rw [Int.toNat_natCast]
        rw [hdata j (by omega)]
        by_cases hj0 : j = 0
        · rw [if_pos ⟨hj0, by omega⟩]
          have hidx : 2 * 0 = j := by omega
          rw [hidx]
        · have hj1 : j = 1 := by omega
          rw [if_neg (fun hcon => hj0 hcon.1), if_pos ⟨hj1, by omega⟩]
          have hidx : 2 * 0 + 1 = j := by omega
          rw [hidx]
    · intro hn j hjl hju
      have h1n : 0 < (instrs.length + 1) / 2 := by omega
      obtain ⟨f, hf, hpt, hall, hdata⟩ := hmain 0 (List.mem_range.mpr h1n)
      constructor
      · show addressMap pm.1 (j : Int) = MapResult.ok ((pm.1 0).frame.toNat * 10 + j)
        rw [hpt]
        dsimp only
        rw [Int.toNat_natCast]
        exact addressMap_page0 pm.1 f j hf (by omega) hpt
      · show pm.2.data ((pm.1 0).frame.toNat * 10 + j) = nulWord
        rw [hpt]
        dsimp only
        rw [Int.toNat_natCast]
        rw [hdata j (by omega)]
        rw [if_neg (fun hcon => by omega), if_neg (fun hcon => by omega)]

/-- Witness for C2's general part, at the `TTL = 1` scenario state. -/
theorem c2_witness :
    (afterIter c2sys).output.filter isTL = c2sys.output.filter isTL ∧
    (afterIter c2sys).cpu.TI = 0 :=
  c2_ttl_guard_never_emits_time_limit.1 c2sys rfl

/-- Witness for C3's universal part, at the demonstration table. -/
theorem c3_witness : addressMap demoPT 99 = addressMapSpec demoPT 99 :=
  c3_addressMap_matches_spec.1 demoPT 99

/-- Witness for the amended C5, at the double-pending scenario state. -/
theorem c5_witness :
    (handleInterrupt c5sys).cpu.TI = 0 ∧ (handleInterrupt c5sys).cpu.PI = 0 ∧
    (handleInterrupt c5sys).cpu.SI = 0 ∧
    (handleInterrupt c5sys).output.length = c5sys.output.length + 1 :=
  c5_dispatch_always_terminates_clears_all c5sys c5pcb rfl (by decide) (by decide)
    (by decide)

/-- Witness for C6, terminating the C1 scenario PCB normally. -/
theorem c6_witness :
    ∃ p2, (terminateCore EMCode.EM_NO_ERR c1sys).1 = some p2 ∧
      p2.terminated = true ∧
      p2.context.state = ProcessState.TERMINATED ∧
      (terminateCore EMCode.EM_NO_ERR c1sys).2.mem.allocated (c1pcb.PTR.toNat / 10) = false ∧
      (∀ k, (c1pcb.PTR.toNat / 10) * 10 ≤ k → k < (c1pcb.PTR.toNat / 10) * 10 + 10 →
        (terminateCore EMCode.EM_NO_ERR c1sys).2.mem.data k = nulWord) ∧
      (terminateCore EMCode.EM_NO_ERR c1sys).2.mem.locked (c1pcb.PTR.toNat / 10) = false ∧
      (∀ i, i < 10 → (c1pcb.pageTable i).valid = true →
        (p2.pageTable i).valid = false ∧
        (terminateCore EMCode.EM_NO_ERR c1sys).2.mem.allocated
          (c1pcb.pageTable i).frame.toNat = false) :=
  c6_terminate_releases_resources EMCode.EM_NO_ERR c1sys c1pcb rfl (by decide) (by decide)
    (by
      intro i hi hv
      unfold c1pcb at hv ⊢
      dsimp only at hv ⊢
      split_ifs at hv ⊢ <;> simp_all)

/-- Witness for C7's four parts, at the `LR00` scenario states. -/
theorem c7_witness :
    c7sysA3.globalTimer = c7sysA.globalTimer + 1 ∧
    loopIter c7sysA = StepRes.cont (preemptCheck c7sysA3) ∧
    preemptCheck c7sysA = c7sysA ∧
    preemptCheck c7sysB = restoreContext
      { c7sysB with
        current := some c7pcbQ
        readyQueue := [] ++ [{ c7pcb with context := ⟨c7sysB.cpu.IC, ProcessState.BLOCKED⟩ }] } :=
  ⟨c7_preemption_characterization.1 c7sysA c7sysA3 rfl,
   c7_preemption_characterization.2.1 c7sysA c7sysA3 rfl (by decide) (by decide) (by decide),
   c7_preemption_characterization.2.2.1 c7sysA (Or.inr rfl),
   c7_preemption_characterization.2.2.2 c7sysB c7pcb c7pcbQ [] (by decide) rfl rfl⟩

/-- Witness for C9, loading a three-instruction program into frames 1
and 2. -/
theorem c9_witness :
    loadProgramIntoMemory c9drawss c9pcb0 c9mem0 c9instrs = some (c9p2, c9m2) ∧
    (c9p2.pageTable 0).valid = true ∧
    (c9p2.pageTable 1).valid = true ∧
    addressMap c9p2.pageTable (2 : Int) =
      MapResult.ok ((c9p2.pageTable 0).frame.toNat * 10 + 2) ∧
    c9m2.data ((c9p2.pageTable 0).frame.toNat * 10 + 2) = nulWord := by
  have h : loadProgramIntoMemory c9drawss c9pcb0 c9mem0 c9instrs = some (c9p2, c9m2) := rfl
  have hmm := c9_load_fetch_mismatch c9drawss c9pcb0 c9mem0 c9instrs c9p2 c9m2 h (by decide)
  exact ⟨h, hmm.1 0 (by decide), hmm.1 1 (by decide),
    (hmm.2.2.2 (by decide) 2 (by decide) (by decide)).1,
    (hmm.2.2.2 (by decide) 2 (by decide) (by decide)).2⟩

/-- Witness for C10's specification part, at the lucky draw stream. -/
theorem c10_witness :
    allocateFrame c10drawsGood c10mem = allocateFrameSpec c10drawsGood c10mem :=
  c10_allocateFrame_random_characterization.1 c10drawsGood c10mem

end MOS
